import Mathlib

/-!
The Fitbit steps collector of statboard (`pkg/collector/fitbit.go`).

A shallow embedding of `NewFitbitCollector`, `Collect`, `getSteps` and `doRequest`.

* Go strings are Lean strings, Go `int` values are integers, wrapped to 64 bits where the
  source converts or negates them.
* A Go result pair `(value, error)` is kept as a pair, so that a nil slice returned next to an
  error can be told apart from an empty one.
* Everything the collector reaches outside its own package is gathered in `World`: the clock
  and the local time zone, the URL check of `http.NewRequest`, the JSON decoder, `time.Parse`,
  the digit reader of `strconv.ParseFloat` and the OAuth client factory.  The HTTP client itself is a field of the
  collector, as in the source.
* Every function that talks to the outside also returns the list of calls it made (`Event`).
* `time.Time` is modelled by `t.unixSec()` (a signed 64 bit second count) and the nanosecond
  field.  The location of a time is passed next to it as a `Location`, which is the outcome of
  `l.lookup(sec)`: the zone in effect at a Unix time, with its offset and its span.
  `time.Now()` reports in `time.Local`, the field `Local` of `World`.  The calendar code
  (`abs`, `absDate`, `norm`, `daysSinceEpoch`, `Date` with its zone lookup, `AddDate`,
  `appendInt`, `Format`) follows the Go standard library.
-/

namespace Collector

/-! ## Machine integers -/

/-- Conversion of a Go integer to `uint64` (two's complement wrap). -/
def uint64 (x : Int) : Nat := (x % 18446744073709551616).toNat

/-- Wrap of an integer into the range of a Go `int` on a 64 bit platform. -/
def int64 (x : Int) : Int := (x + 9223372036854775808) % 18446744073709551616 - 9223372036854775808

/-- Wrap of a natural number into `uint64`. -/
def u64 (n : Nat) : Nat := n % 18446744073709551616

/-! ## Errors (`errors`, `github.com/pkg/errors`, `fmt.Errorf`) -/

/-- A Go error value: a message, or a cause wrapped with a context message. -/
inductive GoError where
  | leaf (msg : String)
  | wrap (cause : GoError) (msg : String)
  deriving DecidableEq

/-- The text returned by the method `Error()`. -/
def GoError.Error : GoError → String
  | .leaf msg => msg
  | .wrap cause msg => msg ++ ": " ++ cause.Error

/-- The Go call `errors.New(msg)`; also used for `errors.Errorf` and `fmt.Errorf` once the
message is formatted. -/
def errors.New (msg : String) : GoError := .leaf msg

/-- The Go call `errors.Wrap(err, msg)` for a non-nil `err`. -/
def errors.Wrap (err : GoError) (msg : String) : GoError := .wrap err msg

/-! ## Slices -/

/-- A Go slice value: the nil slice or a slice holding elements. -/
inductive Slice (α : Type) where
  | nil
  | mk (elems : List α)
  deriving DecidableEq

/-- The Go builtin `append(s, x)`. -/
def Slice.append {α : Type} : Slice α → α → Slice α
  | .nil, x => .mk [x]
  | .mk l, x => .mk (l ++ [x])

/-- The elements of a slice, in order. -/
def Slice.toList {α : Type} : Slice α → List α
  | .nil => []
  | .mk l => l

/-- The Go builtin `len(s)`. -/
def Slice.len {α : Type} (s : Slice α) : Nat := s.toList.length

/-! ## `strings` -/

/-- The Go call `strings.Trim(s, cutset)`: all leading and trailing characters contained in
`cutset` removed. -/
def strings.Trim (s cutset : String) : String :=
  String.mk (((s.data.dropWhile (fun c => cutset.data.contains c)).reverse.dropWhile
    (fun c => cutset.data.contains c)).reverse)

/-! ## `time` -/

def secondsPerMinute : Nat := 60
def secondsPerHour : Nat := 3600
def secondsPerDay : Nat := 86400
def daysPer400Years : Nat := 146097
def daysPer100Years : Nat := 36524
def daysPer4Years : Nat := 1461
def absoluteZeroYear : Int := -292277022399

/-- A zone span as `l.lookup(sec)` returns it: the offset in seconds east of UTC and the Unix
seconds from `start` (included) to `end` (excluded) during which it is in effect. -/
structure Zone where
  offset : Int
  start : Int
  «end» : Int
  deriving DecidableEq

/-- A Go `*time.Location`, given by the outcome of `l.lookup(sec)` for a Unix time `sec`. -/
structure Location where
  lookup : Int → Zone

/-- The location `time.UTC`: offset zero from `alpha` to `omega`. -/
def UTC : Location :=
  { lookup := fun _ => { offset := 0, start := -9223372036854775808, «end» := 9223372036854775807 } }

/-- The constant `unixToInternal + internalToAbsolute` of package `time`. -/
def unixToAbsolute : Int := 9223372028715321600

/-- A Go `time.Time`, given by `t.unixSec()` (a 64 bit integer) and the nanosecond field.  The
location of a `Time` is passed next to it: the results of `time.Now()` and of `AddDate` on them
are in `time.Local`, the results of `time.Parse` with a layout without zone are in UTC. -/
structure Time where
  unix : Int
  nsec : Nat
  unix_ge : -9223372036854775808 ≤ unix
  unix_lt : unix < 9223372036854775808
  nsec_lt : nsec < 1000000000
  deriving DecidableEq

/-- The table `daysBefore` of package `time`: days in a non-leap year before each month. -/
def daysBefore : List Nat := [0, 31, 59, 90, 120, 151, 181, 212, 243, 273, 304, 334, 365]

/-- The Go function `isLeap`; `%` is the truncated remainder of Go. -/
def isLeap (year : Int) : Bool :=
  Int.tmod year 4 == 0 && (Int.tmod year 100 != 0 || Int.tmod year 400 == 0)

/-- The year part of the Go function `absDate`: the count of days since the absolute epoch is
split into the number of years since the absolute zero year and the day within that year. -/
def absYear (days : Nat) : Nat × Nat :=
  let d := days
  -- Account for 400 year cycles.
  let n := d / daysPer400Years
  let y := 400 * n
  let d := d - daysPer400Years * n
  -- Cut off 100-year cycles (n -= n >> 2).
  let n := d / daysPer100Years
  let n := n - n / 4
  let y := y + 100 * n
  let d := d - daysPer100Years * n
  -- Cut off 4-year cycles.
  let n := d / daysPer4Years
  let y := y + 4 * n
  let d := d - daysPer4Years * n
  -- Cut off years within a 4-year cycle (n -= n >> 2).
  let n := d / 365
  let n := n - n / 4
  let y := y + n
  let d := d - 365 * n
  (y, d)

/-- The month and day part of the Go function `absDate`, from the leap year test and the day
within the year (counted from zero). -/
def monthDay (leap : Bool) (yday : Nat) : Nat × Nat :=
  let day := yday
  if leap && day == 31 + 29 - 1 then
    -- Leap day.
    (2, 29)
  else
    -- After leap day; pretend it was not there.
    let day := if leap && day > 31 + 29 - 1 then day - 1 else day
    -- Estimate month on assumption that every month has 31 days.
    let month := day / 31
    let «end» := daysBefore.getD (month + 1) 0
    let (month, begin) :=
      if day ≥ «end» then (month + 1, «end») else (month, daysBefore.getD month 0)
    (month + 1, day - begin + 1)

/-- The Go function `absDate(abs, true)`: year, month, day and day of the year. -/
def absDate (abs : Nat) : Int × Int × Int × Nat :=
  let d := abs / secondsPerDay
  let yd := absYear d
  let year := int64 (int64 (yd.1 : Int) + absoluteZeroYear)
  let md := monthDay (isLeap year) yd.2
  (year, (md.1 : Int), (md.2 : Int), yd.2)

/-- The Go method `t.abs()`: the seconds since the absolute epoch shown by a clock in the
location of `t`. -/
def Time.abs (loc : Location) (t : Time) : Nat :=
  uint64 (int64 (t.unix + (loc.lookup t.unix).offset) + unixToAbsolute)

/-- The Go method `t.Date()` for `t` in the location `loc`. -/
def Time.Date (loc : Location) (t : Time) : Int × Int × Int :=
  let r := absDate (t.abs loc)
  (r.1, r.2.1, r.2.2.1)

/-- The Go method `t.Clock()` (function `absClock`) for `t` in the location `loc`. -/
def Time.Clock (loc : Location) (t : Time) : Int × Int × Int :=
  let sec := t.abs loc % secondsPerDay
  let hour := sec / secondsPerHour
  let sec := sec - hour * secondsPerHour
  let min := sec / secondsPerMinute
  let sec := sec - min * secondsPerMinute
  ((hour : Int), (min : Int), (sec : Int))

/-- The Go function `norm(hi, lo, base)`: `lo` brought into `[0, base)`, the carry moved to
`hi`. -/
def norm (hi lo base : Int) : Int × Int :=
  let (hi, lo) :=
    if lo < 0 then
      let n := (-lo - 1) / base + 1
      (hi - n, lo + n * base)
    else (hi, lo)
  if lo ≥ base then
    let n := lo / base
    (hi + n, lo - n * base)
  else (hi, lo)

/-- The Go function `daysSinceEpoch(year)`. -/
def daysSinceEpoch (year : Int) : Nat :=
  let y := uint64 (year - absoluteZeroYear)
  -- Add in days from 400-year cycles.
  let n := y / 400
  let y := y - 400 * n
  let d := u64 (daysPer400Years * n)
  -- Add in 100-year cycles.
  let n := y / 100
  let y := y - 100 * n
  let d := u64 (d + daysPer100Years * n)
  -- Add in 4-year cycles.
  let n := y / 4
  let y := y - 4 * n
  let d := u64 (d + daysPer4Years * n)
  -- Add in non-leap years.
  let n := y
  u64 (d + 365 * n)

/-- The first part of the Go function `time.Date`: the fields are normalized and the seconds
since the absolute epoch are counted, in `uint64` arithmetic that wraps as in Go.  The result
is the absolute second count and the normalized nanoseconds. -/
def dateAbs (year month day hour min sec nsec : Int) : Nat × Int :=
  -- Normalize month, overflowing into year.
  let m := month - 1
  let (year, m) := norm year m 12
  let month := m + 1
  -- Normalize nsec, sec, min, hour, overflowing into day.
  let (sec, nsec) := norm sec nsec 1000000000
  let (min, sec) := norm min sec 60
  let (hour, min) := norm hour min 60
  let (day, hour) := norm day hour 24
  -- Compute days since the absolute epoch.
  let d := daysSinceEpoch year
  -- Add in days before this month.
  let d := u64 (d + daysBefore.getD (month - 1).toNat 0)
  let d := if isLeap year && month ≥ 3 then u64 (d + 1) else d
  -- Add in days before today.
  let d := u64 (d + uint64 (day - 1))
  -- Add in time elapsed today.
  let abs := u64 (d * secondsPerDay)
  let abs := u64 (abs + uint64 (hour * secondsPerHour + min * secondsPerMinute + sec))
  (abs, nsec)

/-- The second part of the Go function `time.Date`: the zone offset to take off the second
count `unix` that was computed as if the clock showed UTC.  The location is asked for the zone
at `unix`; when `unix` less that offset lies outside the span of that zone, the zone at that
instant is used instead. -/
def zoneOffset (loc : Location) (unix : Int) : Int :=
  let z := loc.lookup unix
  if z.offset ≠ 0 then
    let utc := int64 (unix - z.offset)
    -- If utc is valid for the time zone we found, then we have the right offset.
    -- If not, we get the correct offset by looking up utc in the location.
    if utc < z.start ∨ utc ≥ z.«end» then (loc.lookup utc).offset else z.offset
  else 0

/-- The Go function `time.Date(year, month, day, hour, min, sec, nsec, loc)`. -/
def Date (year month day hour min sec nsec : Int) (loc : Location) : Time :=
  let r := dateAbs year month day hour min sec nsec
  let unix := int64 ((r.1 : Int) - unixToAbsolute)
  -- Look for zone offset for expected time, so we can adjust to UTC.
  { unix := int64 (unix - zoneOffset loc unix)
    nsec := r.2.toNat % 1000000000
    unix_ge := by unfold int64; omega
    unix_lt := by unfold int64; omega
    nsec_lt := Nat.mod_lt _ (by norm_num) }

/-- The Go method `t.AddDate(years, months, days)` for `t` in the location `loc`. -/
def Time.AddDate (loc : Location) (t : Time) (years months days : Int) : Time :=
  let date := t.Date loc
  let clock := t.Clock loc
  Collector.Date (int64 (date.1 + years)) (int64 (date.2.1 + months)) (int64 (date.2.2 + days))
    clock.1 clock.2.1 clock.2.2 t.nsec loc

/-- The Go function `appendInt(b, x, width)` of package `time`: decimal digits of `x`, padded
with zeros to `width` digits, after a minus sign when `x` is negative. -/
def appendInt (x : Int) (width : Nat) : String :=
  let digits := Nat.toDigits 10 x.natAbs
  String.mk ((if x < 0 then ['-'] else []) ++ List.replicate (width - digits.length) '0' ++ digits)

/-- The Go call `t.Format("2006-01-02")` for `t` in the location `loc`. -/
def Time.Format (loc : Location) (t : Time) : String :=
  let date := t.Date loc
  appendInt date.1 4 ++ "-" ++ appendInt date.2.1 2 ++ "-" ++ appendInt date.2.2 2

/-- The length of a month, from the leap year test and the month number. -/
def monthLength (leap : Bool) (month : Nat) : Nat :=
  if month = 2 ∧ leap then 29 else daysBefore.getD month 0 - daysBefore.getD (month - 1) 0

/-- The Go function `daysIn(month, year)`. -/
def daysIn (month year : Int) : Int :=
  ((monthLength (isLeap year) month.toNat : Nat) : Int)

/-- The calendar day after `(year, month, day)`, by the length of the months. -/
def nextDay (c : Int × Int × Int) : Int × Int × Int :=
  if c.2.2 < daysIn c.2.1 c.1 then (c.1, c.2.1, c.2.2 + 1)
  else if c.2.1 < 12 then (c.1, c.2.1 + 1, 1)
  else (c.1 + 1, 1, 1)

/-- A calendar date with a month from 1 to 12 and a day that exists in that month. -/
def validDate (c : Int × Int × Int) : Prop :=
  1 ≤ c.2.1 ∧ c.2.1 ≤ 12 ∧ 1 ≤ c.2.2 ∧ c.2.2 ≤ daysIn c.2.1 c.1

/-- Whole days since the absolute epoch on a clock in the location `loc`. -/
def Time.dayNumber (loc : Location) (t : Time) : Nat := t.abs loc / secondsPerDay

/-! ## `strconv` -/

/-- A finite `float64`: sign, mantissa and binary exponent. -/
structure Finite64 where
  neg : Bool
  mant : Nat
  exp : Int
  deriving DecidableEq

/-- A Go `float64`: a finite number, an infinity or NaN. -/
inductive Float64 where
  | finite (x : Finite64)
  | inf (neg : Bool)
  | nan
  deriving DecidableEq

/-- Whether a `float64` is neither an infinity nor NaN. -/
def Float64.isFinite : Float64 → Bool
  | .finite _ => true
  | _ => false

/-- The Go function `equalIgnoreCase(s1, s2)` of package `strconv`, for a lower-case `s2`:
the upper-case ASCII letters of `s1` are folded before comparing. -/
def equalIgnoreCase (s1 s2 : String) : Bool := s1.data.map Char.toLower == s2.data

/-- The Go function `special(s)` of package `strconv`: the spellings of the infinities and
of NaN. -/
def special (s : String) : Option Float64 :=
  match s.data with
  | [] => none
  | c :: _ =>
    if c = '+' then
      if equalIgnoreCase s "+inf" || equalIgnoreCase s "+infinity" then some (.inf false) else none
    else if c = '-' then
      if equalIgnoreCase s "-inf" || equalIgnoreCase s "-infinity" then some (.inf true) else none
    else if c = 'n' ∨ c = 'N' then
      if equalIgnoreCase s "nan" then some .nan else none
    else if c = 'i' ∨ c = 'I' then
      if equalIgnoreCase s "inf" || equalIgnoreCase s "infinity" then some (.inf false) else none
    else none

/-! ## Types of the sibling packages -/

/-- Modelled from the spec: the type `statboard.Metric` is declared outside the source file;
it is a named, dated, floating-point observation with the fields `Name`, `Date` and `Value`
that `getSteps` fills in. -/
structure Metric where
  Name : String
  Date : Time
  Value : Float64
  deriving DecidableEq

/-- Modelled from the spec: one row of the decoded steps response, the element type of
`FitbitActivities.Steps`, whose declaration is outside the source file; `getSteps` reads its
string fields `ActivityDate` and `Steps`. -/
structure StepsRow where
  ActivityDate : String
  Steps : String
  deriving DecidableEq

/-- Modelled from the spec: the type `FitbitActivities` is declared outside the source file;
it is the decoded response, an ordered sequence of rows in the field `Steps`. -/
structure FitbitActivities where
  Steps : List StepsRow
  deriving DecidableEq

/-- Modelled from the spec: the Fitbit section of `config.Config`, declared outside the source
file: client ID, client secret and the path of the credential cache file. -/
structure FitbitConfig where
  ClientID : String
  ClientSecret : String
  CacheFile : String
  deriving DecidableEq

/-- Modelled from the spec: the type `config.Config`, declared outside the source file;
`NewFitbitCollector` reads only its field `Fitbit`. -/
structure Config where
  Fitbit : FitbitConfig
  deriving DecidableEq

/-! ## `net/http` and the OAuth client -/

/-- The content of a byte slice. -/
abbrev Bytes := List UInt8

/-- An `http.Request` as built by `http.NewRequest`: method, URL and optional body. -/
structure Request where
  Method : String
  URL : String
  Body : Option Bytes
  deriving DecidableEq

/-- An `http.Response` as far as `doRequest` looks at it: the status code and what
`ioutil.ReadAll(resp.Body)` yields. -/
structure Response where
  StatusCode : Int
  Body : Except GoError Bytes

/-- An `*http.Client`: the outcome of `client.Do(req)`. -/
structure Client where
  Do : Request → Except GoError Response

/-- The type `fitbitclient.Config`. -/
structure ClientConfig where
  ClientID : String
  ClientSecret : String
  Scopes : List String
  CredFile : String
  deriving DecidableEq

/-- A call made to the outside. -/
inductive Event where
  | newClient (cfg : ClientConfig)
  | httpDo (req : Request)
  | readAll
  | unmarshal (data : Bytes)
  deriving DecidableEq

/-- The behaviour of what lies outside the package. -/
structure World where
  /-- The Go call `time.Now()`. -/
  Now : Time
  /-- The location `time.Local` of the process, in which `time.Now()` reports. -/
  Local : Location
  /-- The error of `url.Parse(uri)` inside `http.NewRequest`, if any. -/
  urlParse : String → Option GoError
  /-- A fact of `url.Parse`: it accepts an `https` URL on the host `api.fitbit.com` whose path
  holds only ASCII letters, digits, `/`, `-` and `.`. -/
  urlParse_fitbit : ∀ path : String,
    (∀ ch ∈ path.data, ch.isAlphanum = true ∨ ch = '/' ∨ ch = '-' ∨ ch = '.') →
      urlParse ("https://api.fitbit.com/" ++ path) = none
  /-- The Go call `json.Unmarshal(data, &a)` for `a` of type `FitbitActivities`. -/
  Unmarshal : Bytes → Except GoError FitbitActivities
  /-- The Go call `time.Parse(layout, value)`. -/
  Parse : String → String → Except GoError Time
  /-- The number reader of `strconv.ParseFloat(s, 64)` for a string that is not one of the
  special spellings; when it reports no error (a range error included) the value is finite. -/
  readFloat : String → Except GoError Finite64
  /-- The Go call `fitbitclient.NewFitBitClient(cfg)`. -/
  NewFitBitClient : ClientConfig → Except GoError Client

/-- The Go call `strconv.ParseFloat(s, 64)`. -/
def strconv.ParseFloat (W : World) (s : String) : Except GoError Float64 :=
  match special s with
  | some f => .ok f
  | none =>
    match W.readFloat s with
    | .ok x => .ok (.finite x)
    | .error err => .error err

/-- The Go call `http.NewRequest(method, uri, body)` for a valid method: it fails exactly when
the URL does not parse. -/
def http.NewRequest (W : World) (method uri : String) (body : Option Bytes) :
    Except GoError Request :=
  match W.urlParse uri with
  | some err => .error err
  | none => .ok { Method := method, URL := uri, Body := body }

/-! ## The collector -/

def fitbitURI : String := "https://api.fitbit.com/1/user/-"

/-- FitbitCollector is used to collect metrics from Fitbit API. -/
structure FitbitCollector where
  baseURI : String
  client : Client

/-- NewFitbitCollector parses config file and creates a new FitbitCollector. -/
def NewFitbitCollector (W : World) (cfg : Config) :
    (Option FitbitCollector × Option GoError) × List Event :=
  if cfg.Fitbit.ClientID = "" then
    ((none, some (errors.New "'fitbit.client_id' must be present in config")), [])
  else if cfg.Fitbit.ClientSecret = "" then
    ((none, some (errors.New "'fitbit.client_secret' must be present in config")), [])
  else if cfg.Fitbit.CacheFile = "" then
    ((none, some (errors.New "'fitbit.cache_file' must be present in config")), [])
  else
    let clientCfg : ClientConfig :=
      { ClientID := cfg.Fitbit.ClientID
        ClientSecret := cfg.Fitbit.ClientSecret
        Scopes := ["activity"]
        CredFile := cfg.Fitbit.CacheFile }
    match W.NewFitBitClient clientCfg with
    | .error err =>
      ((none, some (errors.Wrap err "could not create fitbit client")), [.newClient clientCfg])
    | .ok client =>
      ((some { baseURI := fitbitURI, client := client }, none), [.newClient clientCfg])

/-- The URI built on the first line of `doRequest`:
`fmt.Sprintf("%s/%s", baseURI, strings.Trim(endpoint, "/"))`. -/
def requestURI (baseURI endpoint : String) : String :=
  baseURI ++ "/" ++ strings.Trim endpoint "/"

/-- The Go function `doRequest`. -/
def doRequest (W : World) (client : Client) (baseURI endpoint : String) :
    Except GoError Bytes × List Event :=
  -- Create the request.
  let uri := requestURI baseURI endpoint
  match http.NewRequest W "GET" uri none with
  | .error err => (.error (errors.Wrap err ("creating request to " ++ uri ++ " failed")), [])
  | .ok req =>
    -- Do the request.
    match client.Do req with
    | .error err =>
      (.error (errors.Wrap err ("performing request to " ++ uri ++ " failed")), [.httpDo req])
    | .ok resp =>
      -- Check that the response status code was OK.
      if resp.StatusCode ≠ 200 then
        (.error (errors.New ("bad response code: " ++ toString resp.StatusCode)), [.httpDo req])
      else
        -- Read the body of the response.
        match resp.Body with
        | .error err =>
          (.error (errors.Wrap err "reading the response body failed"), [.httpDo req, .readAll])
        | .ok b => (.ok b, [.httpDo req, .readAll])

/-- The window of `getSteps`: `end := time.Now().AddDate(0, 0, -1)` and
`start := end.AddDate(0, 0, -daysBack)`, returned as `(start, end)`. -/
def stepsWindow (loc : Location) (now : Time) (daysBack : Int) : Time × Time :=
  let «end» := now.AddDate loc 0 0 (-1)
  let start := «end».AddDate loc 0 0 (int64 (-daysBack))
  (start, «end»)

/-- The endpoint of `getSteps`:
`fmt.Sprintf("activities/steps/date/%s/%s.json", start.Format(..), end.Format(..))`. -/
def stepsEndpoint (loc : Location) (start «end» : Time) : String :=
  "activities/steps/date/" ++ start.Format loc ++ "/" ++ «end».Format loc ++ ".json"

/-- The loop of `getSteps` over the decoded rows, started with the slice `m`. -/
def stepsLoop (W : World) : List StepsRow → Slice Metric → Slice Metric × Option GoError
  | [], m => (m, none)
  | s :: rest, m =>
    match W.Parse "2006-01-02" s.ActivityDate with
    | .error err => (.nil, some (errors.Wrap err "parsing activity date failed"))
    | .ok dt =>
      match strconv.ParseFloat W s.Steps with
      | .error err => (.nil, some (errors.Wrap err "converting steps to float failed"))
      | .ok v =>
        let met : Metric := { Name := "fitbit.steps", Date := dt, Value := v }
        stepsLoop W rest (m.append met)

/-- The Go method `getSteps`. -/
def FitbitCollector.getSteps (W : World) (c : FitbitCollector) (daysBack : Int) :
    (Slice Metric × Option GoError) × List Event :=
  let window := stepsWindow W.Local W.Now daysBack
  let endpoint := stepsEndpoint W.Local window.1 window.2
  match doRequest W c.client c.baseURI endpoint with
  | (.error err, log) => ((.nil, some (errors.Wrap err "collecting steps failed")), log)
  | (.ok resp, log) =>
    match W.Unmarshal resp with
    | .error err =>
      ((.nil, some (errors.Wrap err "unmarshaling steps failed")), log ++ [.unmarshal resp])
    | .ok a => (stepsLoop W a.Steps .nil, log ++ [.unmarshal resp])

/-- Collect returns metric from Fitbit API. -/
def FitbitCollector.Collect (W : World) (c : FitbitCollector) (metricName : String)
    (daysBack : Int) : (Slice Metric × Option GoError) × List Event :=
  if metricName = "steps" then c.getSteps W daysBack
  else ((.nil, some (errors.New ("unsupported metric: " ++ metricName))), [])

/-- The requests sent through the client in a list of calls, in order. -/
def requests (log : List Event) : List Request :=
  log.filterMap (fun e => match e with | .httpDo req => some req | _ => none)

/-- The number of requests sent through the client in a list of calls. -/
def requestCount (log : List Event) : Nat := (requests log).length

/-- Whether a list of calls contains a read or a decoding of a response body. -/
def bodyTouched (log : List Event) : Bool :=
  log.any (fun e => match e with | .readAll => true | .unmarshal _ => true | _ => false)

/-- Whether a list of calls contains a call of the client factory. -/
def factoryCalled (log : List Event) : Bool :=
  log.any (fun e => match e with | .newClient _ => true | _ => false)

/-- The URI that `getSteps` hands to `doRequest`, as `doRequest` builds it. -/
def stepsURI (W : World) (c : FitbitCollector) (daysBack : Int) : String :=
  requestURI c.baseURI
    (stepsEndpoint W.Local (stepsWindow W.Local W.Now daysBack).1
      (stepsWindow W.Local W.Now daysBack).2)

/-- The request that `doRequest` builds for `getSteps`: a GET of `stepsURI` without a body. -/
def stepsRequest (W : World) (c : FitbitCollector) (daysBack : Int) : Request :=
  { Method := "GET", URL := stepsURI W c daysBack, Body := none }

/-- A row parses: `time.Parse` accepts its date and `strconv.ParseFloat` its steps. -/
def rowParses (W : World) (s : StepsRow) : Prop :=
  (∃ dt, W.Parse "2006-01-02" s.ActivityDate = .ok dt) ∧
    (∃ v, strconv.ParseFloat W s.Steps = .ok v)

/-- A row fails: `time.Parse` rejects its date or `strconv.ParseFloat` rejects its steps. -/
def rowFails (W : World) (s : StepsRow) : Prop :=
  (∃ err, W.Parse "2006-01-02" s.ActivityDate = .error err) ∨
    (∃ err, strconv.ParseFloat W s.Steps = .error err)

/-- The metric `getSteps` builds from a row. -/
def metricOfRow (W : World) (s : StepsRow) (met : Metric) : Prop :=
  met.Name = "fitbit.steps" ∧ W.Parse "2006-01-02" s.ActivityDate = .ok met.Date ∧
    strconv.ParseFloat W s.Steps = .ok met.Value

/-- The lower-case spellings that `strconv.ParseFloat` reads as an infinity or as NaN. -/
def specialSpellings : List String :=
  ["inf", "infinity", "+inf", "+infinity", "-inf", "-infinity", "nan"]

/-- The text YYYY-MM-DD of a date, written from the words of the specification: four decimal
digits of the year, a hyphen, two digits of the month, a hyphen, two digits of the day. -/
def isoDate (c : Int × Int × Int) : String :=
  String.mk [Nat.digitChar (c.1.toNat / 1000 % 10), Nat.digitChar (c.1.toNat / 100 % 10),
    Nat.digitChar (c.1.toNat / 10 % 10), Nat.digitChar (c.1.toNat % 10), '-',
    Nat.digitChar (c.2.1.toNat / 10 % 10), Nat.digitChar (c.2.1.toNat % 10), '-',
    Nat.digitChar (c.2.2.toNat / 10 % 10), Nat.digitChar (c.2.2.toNat % 10)]

/-- The clock reading of `t` in `loc`, as seconds of a clock that shows UTC at Unix time. -/
def Time.wall (loc : Location) (t : Time) : Int := t.unix + (loc.lookup t.unix).offset

/-- Zone data as a time zone database gives it: every instant lies in the span of its zone,
the instants of one span have the same zone, offsets are less than a day and a span lasts
more than two days. -/
def Location.regular (loc : Location) : Prop :=
  ∀ s : Int, -9223372036854775808 ≤ s → s < 9223372036854775807 →
    (loc.lookup s).start ≤ s ∧ s < (loc.lookup s).«end» ∧
    -86400 < (loc.lookup s).offset ∧ (loc.lookup s).offset < 86400 ∧
    (loc.lookup s).start + 172800 < (loc.lookup s).«end» ∧
    ∀ s2 : Int, (loc.lookup s).start ≤ s2 → s2 < (loc.lookup s).«end» →
      loc.lookup s2 = loc.lookup s

/-- The clock reading `w` occurs in the location: some instant shows it.  A reading skipped
by a zone transition (clocks set forward) does not occur. -/
def Location.shows (loc : Location) (w : Int) : Prop :=
  ∃ u : Int, -9223372036854775808 ≤ u ∧ u < 9223372036854775807 ∧
    u + (loc.lookup u).offset = w

/-! ## Sample values -/

/-- A location with the zones of America/Havana around March 2024: UTC-5 until the clocks
were set forward on 10 March 2024 at 05:00 UTC (midnight local time), UTC-4 after. -/
def havana : Location :=
  { lookup := fun sec =>
      if sec < 1710046800 then
        { offset := -18000, start := -9223372036854775808, «end» := 1710046800 }
      else { offset := -14400, start := 1710046800, «end» := 9223372036854775807 } }

/-- A clock reading in `havana`: 11 March 2024, 00:30:00 local time (04:30 UTC). -/
def havanaNow : Time := Date 2024 3 11 0 30 0 0 havana

/-- A sample clock reading: 15 March 2024, 12:30:45. -/
def sampleNow : Time := Date 2024 3 15 12 30 45 0 UTC

/-- A sample response body, the bytes of `{}`. -/
def sampleBody : Bytes := [123, 125]

/-- A client that answers every request with the given status code and body. -/
def sampleClient (status : Int) (body : Bytes) : Client :=
  { Do := fun _ => .ok { StatusCode := status, Body := .ok body } }

/-- A sample world.  The URL check rejects a URI that starts with a colon (the
"missing protocol scheme" error of `url.Parse`), the decoder yields `rows` for `sampleBody` and
fails otherwise, `time.Parse` knows two dates, the number reader reads strings of decimal
digits. -/
def sampleWorld (rows : List StepsRow) : World :=
  { Now := sampleNow
    Local := UTC
    urlParse := fun uri =>
      match uri.data with
      | ':' :: _ => some (.leaf "missing protocol scheme")
      | _ => none
    Unmarshal := fun data =>
      if data = sampleBody then .ok { Steps := rows }
      else .error (.leaf "unexpected end of JSON input")
    Parse := fun _ value =>
      if value = "2024-03-13" then .ok (Date 2024 3 13 0 0 0 0 UTC)
      else if value = "2024-03-14" then .ok (Date 2024 3 14 0 0 0 0 UTC)
      else .error (.leaf "cannot parse value")
    readFloat := fun s =>
      if s.data ≠ [] ∧ s.data.all Char.isDigit then
        .ok { neg := false, mant := s.data.foldl (fun n c => 10 * n + (c.toNat - 48)) 0, exp := 0 }
      else .error (.leaf "invalid syntax")
    NewFitBitClient := fun _ => .ok (sampleClient 200 sampleBody)
    urlParse_fitbit := by
      intro path _
      show (match ("https://api.fitbit.com/" ++ path).data with
        | ':' :: _ => some (GoError.leaf "missing protocol scheme")
        | _ => none) = none
      rw [String.data_append]
      rfl }

/-- A collector on the Fitbit base URI whose client answers with the given status and body. -/
def sampleCollector (status : Int) (body : Bytes) : FitbitCollector :=
  { baseURI := fitbitURI, client := sampleClient status body }

/-- Two well-formed rows. -/
def sampleRows : List StepsRow :=
  [{ ActivityDate := "2024-03-13", Steps := "10000" }, { ActivityDate := "2024-03-14", Steps := "8042" }]

/-- A well-formed row followed by a row whose steps are not a number. -/
def badRows : List StepsRow :=
  [{ ActivityDate := "2024-03-13", Steps := "10000" }, { ActivityDate := "2024-03-14", Steps := "abc" }]

/-- A row whose steps string spells an infinity. -/
def infRows : List StepsRow := [{ ActivityDate := "2024-03-14", Steps := "Inf" }]

/-- A sample configuration with all three fields present. -/
def sampleConfig : Config :=
  { Fitbit := { ClientID := "id", ClientSecret := "secret", CacheFile := "cache.json" } }

end Collector

/-! # Theorems -/

namespace Collector

/-! ### Calendar arithmetic -/

theorem tmod_eq_zero_iff (a b : Int) : Int.tmod a b = 0 ↔ a % b = 0 := by
  constructor
  · intro h
    exact Int.emod_eq_zero_of_dvd (Int.dvd_of_tmod_eq_zero h)
  · intro h
    exact Int.tmod_eq_zero_of_dvd (Int.dvd_of_emod_eq_zero h)

theorem isLeap_iff (year : Int) :
    isLeap year = true ↔ year % 4 = 0 ∧ (year % 100 ≠ 0 ∨ year % 400 = 0) := by
  simp [isLeap, tmod_eq_zero_iff]

theorem isLeap_decomp (n c e g : Nat) (hc : c ≤ 3) (he : e ≤ 24) (hg : g ≤ 3) :
    isLeap (((400 * n + 100 * c + 4 * e + g : Nat) : Int) + absoluteZeroYear) = true ↔
      g = 3 ∧ (e < 24 ∨ c = 3) := by
  rw [isLeap_iff]
  simp only [absoluteZeroYear]
  omega

theorem norm_id (hi lo base : Int) (h0 : 0 ≤ lo) (h1 : lo < base) : norm hi lo base = (hi, lo) := by
  simp [norm, not_lt.mpr h0, h1]

theorem daysSinceEpoch_decomp (n c e g : Nat) (hc : c ≤ 3) (he : e ≤ 24) (hg : g ≤ 3)
    (hn : n < 1000000000000) :
    daysSinceEpoch (((400 * n + 100 * c + 4 * e + g : Nat) : Int) + absoluteZeroYear) =
      146097 * n + 36524 * c + 1461 * e + 365 * g := by
  have hy : uint64 (((400 * n + 100 * c + 4 * e + g : Nat) : Int) + absoluteZeroYear - absoluteZeroYear)
      = 400 * n + 100 * c + 4 * e + g := by
    simp only [uint64]
    omega
  simp only [daysSinceEpoch, hy, daysPer400Years, daysPer100Years, daysPer4Years, u64]
  have h1 : (400 * n + 100 * c + 4 * e + g) / 400 = n := by omega
  rw [h1]
  have h2 : 400 * n + 100 * c + 4 * e + g - 400 * n = 100 * c + 4 * e + g := by omega
  rw [h2]
  have h3 : (100 * c + 4 * e + g) / 100 = c := by omega
  rw [h3]
  have h4 : 100 * c + 4 * e + g - 100 * c = 4 * e + g := by omega
  rw [h4]
  have h5 : (4 * e + g) / 4 = e := by omega
  rw [h5]
  have h6 : 4 * e + g - 4 * e = g := by omega
  rw [h6]
  omega

theorem dateAbs_clean (year day : Int) (m h mi s ns : Nat) (hm1 : 1 ≤ m) (hm2 : m ≤ 12)
    (hh : h < 24) (hmi : mi < 60) (hs : s < 60) (hns : ns < 1000000000) :
    (dateAbs year m day h mi s ns).1 =
      uint64 ((((daysSinceEpoch year + daysBefore.getD (m - 1) 0 +
        (if isLeap year && decide (3 ≤ m) then 1 else 0) : Nat) : Int) + (day - 1)) * 86400 +
        h * 3600 + mi * 60 + s) := by
  have e1 : norm year ((m : Int) - 1) 12 = (year, (m : Int) - 1) := norm_id _ _ _ (by omega) (by omega)
  have e2 : norm (s : Int) (ns : Int) 1000000000 = ((s : Int), (ns : Int)) := norm_id _ _ _ (by omega) (by omega)
  have e3 : norm (mi : Int) (s : Int) 60 = ((mi : Int), (s : Int)) := norm_id _ _ _ (by omega) (by omega)
  have e4 : norm (h : Int) (mi : Int) 60 = ((h : Int), (mi : Int)) := norm_id _ _ _ (by omega) (by omega)
  have e5 : norm day (h : Int) 24 = (day, (h : Int)) := norm_id _ _ _ (by omega) (by omega)
  have e6 : ((m : Int) - 1 + 1 - 1).toNat = m - 1 := by omega
  have e7 : decide ((m : Int) - 1 + 1 ≥ 3) = decide (3 ≤ m) := by
    rw [decide_eq_decide]; omega
  unfold dateAbs
  simp only [e1, e2, e3, e4, e5]
  rw [e6, e7]
  generalize daysSinceEpoch year = A
  generalize daysBefore.getD (m - 1) 0 = B
  generalize (isLeap year && decide (3 ≤ m)) = b
  have k1 : secondsPerDay = 86400 := rfl
  have k2 : secondsPerHour = 3600 := rfl
  have k3 : secondsPerMinute = 60 := rfl
  rw [k1, k2, k3]
  simp only [Nat.cast_ofNat]
  unfold u64 uint64
  obtain ⟨d2, hd2⟩ : ∃ d2 : Nat, d2 = (if b = true then ((A + B) % 18446744073709551616 + 1) % 18446744073709551616
      else (A + B) % 18446744073709551616) := ⟨_, rfl⟩
  rw [← hd2]
  have hd2i : (d2 : Int) = ((A + B + if b = true then 1 else 0 : Nat) : Int) % 18446744073709551616 := by
    cases b
    · simp only [Bool.false_eq_true, if_false] at hd2 ⊢
      omega
    · simp only [if_true] at hd2 ⊢
      omega
  generalize (A + B + if b = true then 1 else 0 : Nat) = Y at hd2i ⊢
  obtain ⟨d3, hd3⟩ : ∃ d3 : Nat, d3 = (d2 + ((day - 1) % 18446744073709551616).toNat) % 18446744073709551616 := ⟨_, rfl⟩
  rw [← hd3]
  have hd3i : (d3 : Int) = ((Y : Int) + (day - 1)) % 18446744073709551616 := by omega
  obtain ⟨a1, ha1⟩ : ∃ a1 : Nat, a1 = d3 * 86400 % 18446744073709551616 := ⟨_, rfl⟩
  rw [← ha1]
  have ha1i : (a1 : Int) = (((Y : Int) + (day - 1)) * 86400) % 18446744073709551616 := by omega
  obtain ⟨a2, ha2⟩ : ∃ a2 : Nat, a2 = (a1 + (((h : Int) * 3600 + mi * 60 + s) % 18446744073709551616).toNat) % 18446744073709551616 := ⟨_, rfl⟩
  rw [← ha2]
  have ha2i : (a2 : Int) = (((Y : Int) + (day - 1)) * 86400 + ((h : Int) * 3600 + mi * 60 + s)) % 18446744073709551616 := by omega
  have e : ((Y : Int) + (day - 1)) * 86400 + (h : Int) * 3600 + mi * 60 + s = ((Y : Int) + (day - 1)) * 86400 + ((h : Int) * 3600 + mi * 60 + s) := by ring
  rw [e, ← ha2i]
  omega

theorem absYear_of_decomp (n c e g d : Nat) (hc : c ≤ 3) (he : e ≤ 24) (hg : g ≤ 3)
    (hd : d ≤ 365) (hl : d = 365 → g = 3 ∧ (e < 24 ∨ c = 3)) :
    absYear (146097 * n + 36524 * c + 1461 * e + 365 * g + d) = (400 * n + 100 * c + 4 * e + g, d) := by
  simp only [absYear, daysPer400Years, daysPer100Years, daysPer4Years]
  have h1 : (146097 * n + 36524 * c + 1461 * e + 365 * g + d) / 146097 = n := by omega
  rw [h1]
  have h2 : 146097 * n + 36524 * c + 1461 * e + 365 * g + d - 146097 * n = 36524 * c + 1461 * e + 365 * g + d := by omega
  rw [h2]
  have h3 : (36524 * c + 1461 * e + 365 * g + d) / 36524 - (36524 * c + 1461 * e + 365 * g + d) / 36524 / 4 = c := by
    interval_cases c <;> omega
  rw [h3]
  have h4 : 36524 * c + 1461 * e + 365 * g + d - 36524 * c = 1461 * e + 365 * g + d := by omega
  rw [h4]
  have h5 : (1461 * e + 365 * g + d) / 1461 = e := by omega
  rw [h5]
  have h6 : 1461 * e + 365 * g + d - 1461 * e = 365 * g + d := by omega
  rw [h6]
  have h7 : (365 * g + d) / 365 - (365 * g + d) / 365 / 4 = g := by
    interval_cases g <;> omega
  rw [h7]
  have h8 : 365 * g + d - 365 * g = d := by omega
  rw [h8]

theorem absYear_decomp (days : Nat) : ∃ n c e g d, c ≤ 3 ∧ e ≤ 24 ∧ g ≤ 3 ∧ d ≤ 365 ∧
    (d = 365 → g = 3 ∧ (e < 24 ∨ c = 3)) ∧
    days = 146097 * n + 36524 * c + 1461 * e + 365 * g + d := by
  refine ⟨days / 146097, (days % 146097) / 36524 - (days % 146097) / 36524 / 4, ?_⟩
  generalize hr : days % 146097 = r
  have hr' : r < 146097 := by omega
  generalize hc : r / 36524 - r / 36524 / 4 = c
  have hc3 : c ≤ 3 := by omega
  obtain ⟨r2, hr2⟩ : ∃ r2, r2 = r - 36524 * c := ⟨_, rfl⟩
  have hr2' : r2 ≤ 36524 := by omega
  have hr2'' : c < 3 → r2 < 36524 := by omega
  have hrc : r = 36524 * c + r2 := by omega
  refine ⟨r2 / 1461, (r2 % 1461) / 365 - (r2 % 1461) / 365 / 4, ?_⟩
  generalize hr3 : r2 % 1461 = r3
  generalize hg : r3 / 365 - r3 / 365 / 4 = g
  refine ⟨r3 - 365 * g, ?_⟩
  refine ⟨hc3, by omega, by omega, by omega, by omega, by omega⟩

theorem absDate_of_decomp (abs n c e g d : Nat) (hc : c ≤ 3) (he : e ≤ 24) (hg : g ≤ 3)
    (hn : n < 1000000000000) (hd : d ≤ 365) (hl : d = 365 → g = 3 ∧ (e < 24 ∨ c = 3))
    (hD : abs / 86400 = 146097 * n + 36524 * c + 1461 * e + 365 * g + d) :
    absDate abs = (((400 * n + 100 * c + 4 * e + g : Nat) : Int) + absoluteZeroYear,
        (((monthDay (isLeap (((400 * n + 100 * c + 4 * e + g : Nat) : Int) + absoluteZeroYear)) d).1 : Nat) : Int),
        (((monthDay (isLeap (((400 * n + 100 * c + 4 * e + g : Nat) : Int) + absoluteZeroYear)) d).2 : Nat) : Int),
        d) := by
  have hy := absYear_of_decomp n c e g d hc he hg hd hl
  have hyear : int64 (int64 ((400 * n + 100 * c + 4 * e + g : Nat) : Int) + absoluteZeroYear) =
      ((400 * n + 100 * c + 4 * e + g : Nat) : Int) + absoluteZeroYear := by
    simp only [int64, absoluteZeroYear]
    omega
  have k1 : secondsPerDay = 86400 := rfl
  simp only [absDate, k1, hD, hy, hyear]

theorem absDate_spec (abs : Nat) (habs : abs < 18446744073709551616) :
    ∃ n c e g d : Nat, c ≤ 3 ∧ e ≤ 24 ∧ g ≤ 3 ∧ n < 1000000000000 ∧
      (d = 365 → g = 3 ∧ (e < 24 ∨ c = 3)) ∧ d ≤ 365 ∧
      abs / 86400 = 146097 * n + 36524 * c + 1461 * e + 365 * g + d ∧
      absDate abs = (((400 * n + 100 * c + 4 * e + g : Nat) : Int) + absoluteZeroYear,
        (((monthDay (isLeap (((400 * n + 100 * c + 4 * e + g : Nat) : Int) + absoluteZeroYear)) d).1 : Nat) : Int),
        (((monthDay (isLeap (((400 * n + 100 * c + 4 * e + g : Nat) : Int) + absoluteZeroYear)) d).2 : Nat) : Int),
        d) := by
  obtain ⟨n, c, e, g, d, hc, he, hg, hd, hl, hD⟩ := absYear_decomp (abs / 86400)
  have hn : n < 1000000000000 := by omega
  exact ⟨n, c, e, g, d, hc, he, hg, hn, hl, hd, hD,
    absDate_of_decomp abs n c e g d hc he hg hn hd hl hD⟩

set_option maxRecDepth 100000 in
theorem monthDay_round : ∀ b : Bool, ∀ yday : Nat, yday < 366 → yday < 365 + b.toNat →
    1 ≤ (monthDay b yday).1 ∧ (monthDay b yday).1 ≤ 12 ∧ 1 ≤ (monthDay b yday).2 ∧
    (monthDay b yday).2 ≤ monthLength b (monthDay b yday).1 ∧
    daysBefore.getD ((monthDay b yday).1 - 1) 0 +
      (if b && decide (3 ≤ (monthDay b yday).1) then 1 else 0) +
      ((monthDay b yday).2 - 1) = yday := by
  decide

set_option maxRecDepth 100000 in
theorem monthDay_step : ∀ b : Bool, ∀ yday : Nat, yday < 366 → yday + 1 < 365 + b.toNat →
    (if (monthDay b yday).2 < monthLength b (monthDay b yday).1
      then monthDay b (yday + 1) = ((monthDay b yday).1, (monthDay b yday).2 + 1)
      else (monthDay b yday).1 < 12 ∧
        monthDay b (yday + 1) = ((monthDay b yday).1 + 1, 1)) := by
  decide

theorem monthDay_last : ∀ b : Bool, monthDay b (364 + b.toNat) = (12, 31) ∧
    monthLength b 12 = 31 ∧ monthDay b 0 = (1, 1) := by
  decide

theorem clock_sum (abs : Nat) :
    ((abs % 86400 / 3600 : Nat) : Int) * 3600 +
      ((abs % 86400 - abs % 86400 / 3600 * 3600) / 60 : Nat) * 60 +
      ((abs % 86400 - abs % 86400 / 3600 * 3600 -
        (abs % 86400 - abs % 86400 / 3600 * 3600) / 60 * 60 : Nat) : Int) = ((abs % 86400 : Nat) : Int) := by
  omega

/-- The day counting of `time.Date` after `AddDate(0, 0, k)`: the absolute second count moves
by `86400 * k`, modulo `2 ^ 64`. -/
theorem AddDate_dateAbs (abs ns : Nat) (habs : abs < 18446744073709551616)
    (hns : ns < 1000000000) (k : Int) (hk1 : -9223372036854775808 ≤ k)
    (hk2 : k < 9223372036854775776) :
    (dateAbs (int64 ((absDate abs).1 + 0)) (int64 ((absDate abs).2.1 + 0))
      (int64 ((absDate abs).2.2.1 + k)) ((abs % 86400 / 3600 : Nat) : Int)
      (((abs % 86400 - abs % 86400 / 3600 * 3600) / 60 : Nat) : Int)
      ((abs % 86400 - abs % 86400 / 3600 * 3600 -
        (abs % 86400 - abs % 86400 / 3600 * 3600) / 60 * 60 : Nat) : Int) (ns : Int)).1 =
      uint64 ((abs : Int) + 86400 * k) := by
  obtain ⟨n, c, e, g, d, hc, he, hg, hn, hl, hd, hD, hdate⟩ := absDate_spec abs habs
  have hleap := isLeap_decomp n c e g hc he hg
  have hdse := daysSinceEpoch_decomp n c e g hc he hg hn
  generalize hyear : ((400 * n + 100 * c + 4 * e + g : Nat) : Int) + absoluteZeroYear = year
    at hdate hleap hdse
  have hyb : -292277022399 ≤ year ∧ year < 1000000000000000 := by
    simp only [absoluteZeroYear] at hyear
    omega
  have hdb : d < 365 + (isLeap year).toNat := by
    cases hb : isLeap year
    · have : ¬ (g = 3 ∧ (e < 24 ∨ c = 3)) := by
        intro h; rw [hleap.mpr h] at hb; exact Bool.noConfusion hb
      simp only [Bool.toNat_false]
      omega
    · simp only [Bool.toNat_true]
      omega
  obtain ⟨hm1, hm2, hd1, hd2, hround⟩ := monthDay_round (isLeap year) d (by omega) hdb
  generalize hmd : monthDay (isLeap year) d = md at hdate hm1 hm2 hd1 hd2 hround
  have hml : monthLength (isLeap year) md.1 ≤ 31 := by
    have : ∀ b : Bool, ∀ m : Nat, m < 13 → monthLength b m ≤ 31 := by decide
    exact this _ _ (by omega)
  have i1 : int64 (year + 0) = year := by simp only [int64]; omega
  have i2 : int64 ((md.1 : Int) + 0) = (md.1 : Int) := by simp only [int64]; omega
  have i3 : int64 ((md.2 : Int) + k) = (md.2 : Int) + k := by simp only [int64]; omega
  have h1 : (absDate abs).1 = year := by rw [hdate]
  have h2 : (absDate abs).2.1 = (md.1 : Int) := by rw [hdate]
  have h3 : (absDate abs).2.2.1 = (md.2 : Int) := by rw [hdate]
  rw [h1, h2, h3, i1, i2, i3]
  have b1 : abs % 86400 / 3600 < 24 := by omega
  have b2 : (abs % 86400 - abs % 86400 / 3600 * 3600) / 60 < 60 := by omega
  have b3 : abs % 86400 - abs % 86400 / 3600 * 3600 -
      (abs % 86400 - abs % 86400 / 3600 * 3600) / 60 * 60 < 60 := by omega
  refine (dateAbs_clean year (↑md.2 + k) md.1 (abs % 86400 / 3600)
    ((abs % 86400 - abs % 86400 / 3600 * 3600) / 60)
    (abs % 86400 - abs % 86400 / 3600 * 3600 - (abs % 86400 - abs % 86400 / 3600 * 3600) / 60 * 60)
    ns hm1 hm2 b1 b2 b3 hns).trans (congrArg uint64 ?_)
  rw [hdse]
  obtain ⟨L, hL⟩ : ∃ L : Nat, L = (if (isLeap year && decide (3 ≤ md.1)) = true then 1 else 0) :=
    ⟨_, rfl⟩
  rw [← hL] at hround ⊢
  obtain ⟨B, hB⟩ : ∃ B : Nat, B = daysBefore.getD (md.1 - 1) 0 := ⟨_, rfl⟩
  rw [← hB] at hround ⊢
  clear b1 b2 b3 h1 h2 h3 hdate hleap hdse hdb hml i1 i2 i3 hL hB
  push_cast
  omega

theorem nextDay_cast (year : Int) (m d : Nat) :
    nextDay (year, (m : Int), (d : Int)) =
      if d < monthLength (isLeap year) m then (year, (m : Int), ((d + 1 : Nat) : Int))
      else if m < 12 then (year, ((m + 1 : Nat) : Int), 1)
      else (year + 1, 1, 1) := by
  simp only [nextDay, daysIn, Int.toNat_ofNat, Nat.cast_lt, Nat.cast_add, Nat.cast_one]
  by_cases h1 : d < monthLength (isLeap year) m
  · rw [if_pos h1, if_pos h1]
  · rw [if_neg h1, if_neg h1]
    by_cases h2 : m < 12
    · rw [if_pos h2, if_pos (by omega)]
    · rw [if_neg h2, if_neg (by omega)]

/-- The calendar date one day (86400 seconds) later is the next day of the calendar. -/
theorem absDate_succ (abs : Nat) (h : abs + 86400 < 18446744073709551616) :
    ((absDate (abs + 86400)).1, (absDate (abs + 86400)).2.1, (absDate (abs + 86400)).2.2.1) =
      nextDay ((absDate abs).1, (absDate abs).2.1, (absDate abs).2.2.1) := by
  obtain ⟨n, c, e, g, d, hc, he, hg, hn, hl, hd, hD, hdate⟩ := absDate_spec abs (by omega)
  have hleap := isLeap_decomp n c e g hc he hg
  have hD1 : (abs + 86400) / 86400 = abs / 86400 + 1 := by omega
  rw [hdate]
  simp only []
  rw [nextDay_cast]
  generalize hb : isLeap (((400 * n + 100 * c + 4 * e + g : Nat) : Int) + absoluteZeroYear) = b
    at hleap ⊢
  have hbt : b.toNat = 1 ↔ (g = 3 ∧ (e < 24 ∨ c = 3)) := by
    rw [← hleap]; cases b <;> simp
  have hb01 : b.toNat ≤ 1 := by cases b <;> simp
  by_cases hlast : d + 1 < 365 + b.toNat
  · -- inside the year
    have hstep := monthDay_step b d (by omega) hlast
    have hnext := absDate_of_decomp (abs + 86400) n c e g (d + 1) hc he hg hn (by omega)
      (by omega) (by omega)
    rw [hnext, hb]
    simp only []
    split at hstep
    · rename_i hlt
      rw [if_pos hlt, hstep]
    · rename_i hlt
      rw [if_neg hlt, if_pos hstep.1, hstep.2]
      simp only [Nat.cast_one]
  · -- last day of the year
    have hdl : d = 364 + b.toNat := by omega
    obtain ⟨hl1, hl2, hl3⟩ := monthDay_last b
    rw [hdl, hl1]
    simp only [hl2, lt_irrefl, if_false]
    have hfirst : ∀ b2 : Bool, monthDay b2 0 = (1, 1) := fun b2 => (monthDay_last b2).2.2
    have key : ∃ n2 c2 e2 g2 : Nat, c2 ≤ 3 ∧ e2 ≤ 24 ∧ g2 ≤ 3 ∧ n2 < 1000000000000 ∧
        (abs + 86400) / 86400 = 146097 * n2 + 36524 * c2 + 1461 * e2 + 365 * g2 + 0 ∧
        400 * n2 + 100 * c2 + 4 * e2 + g2 = 400 * n + 100 * c + 4 * e + g + 1 := by
      by_cases h3 : g < 3
      · exact ⟨n, c, e, g + 1, hc, he, by omega, hn, by omega, by omega⟩
      · by_cases h4 : e < 24
        · exact ⟨n, c, e + 1, 0, hc, by omega, by omega, hn, by omega, by omega⟩
        · by_cases h5 : c < 3
          · exact ⟨n, c + 1, 0, 0, by omega, by omega, by omega, hn, by omega, by omega⟩
          · exact ⟨n + 1, 0, 0, 0, by omega, by omega, by omega, by omega, by omega, by omega⟩
    obtain ⟨n2, c2, e2, g2, hc2, he2, hg2, hn2, hD2, hy2⟩ := key
    have hnext := absDate_of_decomp (abs + 86400) n2 c2 e2 g2 0 hc2 he2 hg2 hn2 (by omega)
      (by omega) hD2
    rw [hnext, hfirst, hy2]
    simp only [Nat.cast_add, Nat.cast_one, Prod.mk.injEq, and_true]
    ring

/-! ### The request made by `getSteps` -/

theorem doRequest_steps (W : World) (c : FitbitCollector) (daysBack : Int) :
    doRequest W c.client c.baseURI
        (stepsEndpoint W.Local (stepsWindow W.Local W.Now daysBack).1
          (stepsWindow W.Local W.Now daysBack).2) =
      match W.urlParse (stepsURI W c daysBack) with
      | some err =>
        (.error (errors.Wrap err ("creating request to " ++ stepsURI W c daysBack ++ " failed")), [])
      | none =>
        match c.client.Do (stepsRequest W c daysBack) with
        | .error err =>
          (.error (errors.Wrap err ("performing request to " ++ stepsURI W c daysBack ++ " failed")),
            [.httpDo (stepsRequest W c daysBack)])
        | .ok resp =>
          if resp.StatusCode ≠ 200 then
            (.error (errors.New ("bad response code: " ++ toString resp.StatusCode)),
              [.httpDo (stepsRequest W c daysBack)])
          else
            match resp.Body with
            | .error err =>
              (.error (errors.Wrap err "reading the response body failed"),
                [.httpDo (stepsRequest W c daysBack), .readAll])
            | .ok b => (.ok b, [.httpDo (stepsRequest W c daysBack), .readAll]) := by
  unfold doRequest http.NewRequest stepsRequest stepsURI
  dsimp only
  cases W.urlParse (requestURI c.baseURI
    (stepsEndpoint W.Local (stepsWindow W.Local W.Now daysBack).1
          (stepsWindow W.Local W.Now daysBack).2)) <;> rfl

theorem getSteps_eq (W : World) (c : FitbitCollector) (daysBack : Int) :
    c.getSteps W daysBack =
      match doRequest W c.client c.baseURI
        (stepsEndpoint W.Local (stepsWindow W.Local W.Now daysBack).1
          (stepsWindow W.Local W.Now daysBack).2) with
      | (.error err, log) => ((.nil, some (errors.Wrap err "collecting steps failed")), log)
      | (.ok resp, log) =>
        match W.Unmarshal resp with
        | .error err =>
          ((.nil, some (errors.Wrap err "unmarshaling steps failed")), log ++ [.unmarshal resp])
        | .ok a => (stepsLoop W a.Steps .nil, log ++ [.unmarshal resp]) := rfl

theorem Collect_steps (W : World) (c : FitbitCollector) (daysBack : Int) :
    c.Collect W "steps" daysBack = c.getSteps W daysBack := by
  unfold FitbitCollector.Collect
  rw [if_pos rfl]

/-- When the response has status 200 and its body is read, `getSteps` decodes the body. -/
theorem getSteps_body (W : World) (c : FitbitCollector) (daysBack : Int) (resp : Response)
    (body : Bytes) (hurl : W.urlParse (stepsURI W c daysBack) = none)
    (hdo : c.client.Do (stepsRequest W c daysBack) = .ok resp)
    (hstatus : resp.StatusCode = 200) (hbody : resp.Body = .ok body) :
    c.getSteps W daysBack =
      match W.Unmarshal body with
      | .error err =>
        ((.nil, some (errors.Wrap err "unmarshaling steps failed")),
          [.httpDo (stepsRequest W c daysBack), .readAll, .unmarshal body])
      | .ok a =>
        (stepsLoop W a.Steps .nil,
          [.httpDo (stepsRequest W c daysBack), .readAll, .unmarshal body]) := by
  rw [getSteps_eq, doRequest_steps, hurl]
  simp only [hdo, hstatus, hbody, ne_eq, not_true_eq_false, if_false]
  cases W.Unmarshal body <;> rfl

/-- When the body decodes, `getSteps` runs the loop over the decoded rows. -/
theorem getSteps_decoded (W : World) (c : FitbitCollector) (daysBack : Int) (resp : Response)
    (body : Bytes) (a : FitbitActivities) (hurl : W.urlParse (stepsURI W c daysBack) = none)
    (hdo : c.client.Do (stepsRequest W c daysBack) = .ok resp)
    (hstatus : resp.StatusCode = 200) (hbody : resp.Body = .ok body)
    (hjson : W.Unmarshal body = .ok a) :
    c.getSteps W daysBack =
      (stepsLoop W a.Steps .nil,
        [.httpDo (stepsRequest W c daysBack), .readAll, .unmarshal body]) := by
  rw [getSteps_body W c daysBack resp body hurl hdo hstatus hbody, hjson]

/-- When the body does not decode, `getSteps` wraps the decode error. -/
theorem getSteps_undecoded (W : World) (c : FitbitCollector) (daysBack : Int) (resp : Response)
    (body : Bytes) (e : GoError) (hurl : W.urlParse (stepsURI W c daysBack) = none)
    (hdo : c.client.Do (stepsRequest W c daysBack) = .ok resp)
    (hstatus : resp.StatusCode = 200) (hbody : resp.Body = .ok body)
    (hjson : W.Unmarshal body = .error e) :
    c.getSteps W daysBack =
      ((.nil, some (errors.Wrap e "unmarshaling steps failed")),
        [.httpDo (stepsRequest W c daysBack), .readAll, .unmarshal body]) := by
  rw [getSteps_body W c daysBack resp body hurl hdo hstatus hbody, hjson]

/-! ### The loop over the rows -/

theorem Slice.toList_append {α : Type} (m : Slice α) (x : α) :
    (m.append x).toList = m.toList ++ [x] := by
  cases m <;> rfl

theorem rowParses_or_rowFails (W : World) (s : StepsRow) : rowParses W s ∨ rowFails W s := by
  unfold rowParses rowFails
  cases h1 : W.Parse "2006-01-02" s.ActivityDate with
  | error e => exact Or.inr (Or.inl ⟨e, rfl⟩)
  | ok dt =>
    cases h2 : strconv.ParseFloat W s.Steps with
    | error e => exact Or.inr (Or.inr ⟨e, rfl⟩)
    | ok v => exact Or.inl ⟨⟨dt, rfl⟩, ⟨v, rfl⟩⟩

theorem not_rowFails_of_rowParses (W : World) (s : StepsRow) (h : rowParses W s) :
    ¬ rowFails W s := by
  obtain ⟨⟨dt, h1⟩, ⟨v, h2⟩⟩ := h
  rintro (⟨e, h3⟩ | ⟨e, h3⟩)
  · rw [h1] at h3; exact Except.noConfusion h3
  · rw [h2] at h3; exact Except.noConfusion h3

/-- When every row parses, the loop appends one metric per row, in order, and reports no
error. -/
theorem stepsLoop_ok (W : World) :
    ∀ (rows : List StepsRow) (m : Slice Metric), (∀ s ∈ rows, rowParses W s) →
      ∃ mets : List Metric, List.Forall₂ (metricOfRow W) rows mets ∧
        (stepsLoop W rows m).2 = none ∧
        (stepsLoop W rows m).1.toList = m.toList ++ mets ∧
        (rows ≠ [] → ∃ l, (stepsLoop W rows m).1 = .mk l)
  | [], m, _ => ⟨[], List.Forall₂.nil, rfl, by simp [stepsLoop], by simp⟩
  | s :: rest, m, h => by
    obtain ⟨⟨dt, h1⟩, ⟨v, h2⟩⟩ := h s (List.mem_cons_self _ _)
    obtain ⟨mets, hf, he, hl, hn⟩ := stepsLoop_ok W rest
      (m.append { Name := "fitbit.steps", Date := dt, Value := v })
      (fun s' hs' => h s' (List.mem_cons_of_mem _ hs'))
    refine ⟨{ Name := "fitbit.steps", Date := dt, Value := v } :: mets,
      List.Forall₂.cons ⟨rfl, h1, h2⟩ hf, ?_, ?_, ?_⟩
    · simp only [stepsLoop, h1, h2]; exact he
    · simp only [stepsLoop, h1, h2]
      rw [hl, Slice.toList_append]; simp
    · intro _
      simp only [stepsLoop, h1, h2]
      cases rest with
      | nil =>
        simp only [stepsLoop]
        cases m <;> exact ⟨_, rfl⟩
      | cons s2 rest2 => exact hn (by simp)

/-- When some row fails, the loop returns the nil slice and an error. -/
theorem stepsLoop_fail (W : World) :
    ∀ (rows : List StepsRow) (m : Slice Metric), (∃ s ∈ rows, rowFails W s) →
      ∃ err, stepsLoop W rows m = (.nil, some err)
  | [], _, h => by
    obtain ⟨s, hs, _⟩ := h
    exact absurd hs (List.not_mem_nil s)
  | s :: rest, m, h => by
    cases h1 : W.Parse "2006-01-02" s.ActivityDate with
    | error e => exact ⟨errors.Wrap e "parsing activity date failed", by simp only [stepsLoop, h1]⟩
    | ok dt =>
      cases h2 : strconv.ParseFloat W s.Steps with
      | error e =>
        exact ⟨errors.Wrap e "converting steps to float failed", by simp only [stepsLoop, h1, h2]⟩
      | ok v =>
        have hrest : ∃ s' ∈ rest, rowFails W s' := by
          obtain ⟨s', hs', hbad⟩ := h
          rcases List.mem_cons.mp hs' with rfl | hmem
          · exact absurd hbad (not_rowFails_of_rowParses W s' ⟨⟨dt, h1⟩, ⟨v, h2⟩⟩)
          · exact ⟨s', hmem, hbad⟩
        obtain ⟨err, he⟩ := stepsLoop_fail W rest
          (m.append { Name := "fitbit.steps", Date := dt, Value := v }) hrest
        exact ⟨err, by simp only [stepsLoop, h1, h2]; exact he⟩

/-! ### Claims about `Collect` and `NewFitbitCollector` -/

/-- C1: when the request is answered with status 200, the body is read and decodes to rows
that all parse, `Collect("steps", daysBack)` returns no error and exactly one metric per row;
the metric at index `i` is named "fitbit.steps" and carries the parsed date and the parsed
steps of row `i`. -/
theorem collect_wellformed_rows (W : World) (c : FitbitCollector) (daysBack : Int)
    (resp : Response) (body : Bytes) (a : FitbitActivities)
    (hurl : W.urlParse (stepsURI W c daysBack) = none)
    (hdo : c.client.Do (stepsRequest W c daysBack) = .ok resp)
    (hstatus : resp.StatusCode = 200) (hbody : resp.Body = .ok body)
    (hjson : W.Unmarshal body = .ok a)
    (hrows : ∀ s ∈ a.Steps, rowParses W s) :
    (c.Collect W "steps" daysBack).1.2 = none ∧
    (c.Collect W "steps" daysBack).1.1.len = a.Steps.length ∧
    ∀ (i : Nat) (hi : i < a.Steps.length), ∃ met,
      (c.Collect W "steps" daysBack).1.1.toList[i]? = some met ∧
      met.Name = "fitbit.steps" ∧
      W.Parse "2006-01-02" a.Steps[i].ActivityDate = .ok met.Date ∧
      strconv.ParseFloat W a.Steps[i].Steps = .ok met.Value := by
  rw [Collect_steps, getSteps_decoded W c daysBack resp body a hurl hdo hstatus hbody hjson]
  obtain ⟨mets, hf, he, hl, _⟩ := stepsLoop_ok W a.Steps .nil hrows
  have hl2 : (stepsLoop W a.Steps Slice.nil).1.toList = mets := by
    rw [hl]; rfl
  have hlen := hf.length_eq
  refine ⟨he, ?_, ?_⟩
  · show (stepsLoop W a.Steps Slice.nil).1.toList.length = _
    rw [hl2, hlen]
  · intro i hi
    have hi2 : i < mets.length := hlen ▸ hi
    refine ⟨mets[i], ?_, ?_⟩
    · show (stepsLoop W a.Steps Slice.nil).1.toList[i]? = _
      rw [hl2]
      exact List.getElem?_eq_getElem hi2
    · exact List.Forall₂.get hf hi hi2

set_option maxRecDepth 100000 in
/-- A run of C1: two well-formed rows give two metrics and no error. -/
theorem collect_wellformed_rows_witness :
    ((sampleCollector 200 sampleBody).Collect (sampleWorld sampleRows) "steps" 7).1.2 = none ∧
    ((sampleCollector 200 sampleBody).Collect (sampleWorld sampleRows) "steps" 7).1.1.len = 2 :=
  have h := collect_wellformed_rows (sampleWorld sampleRows) (sampleCollector 200 sampleBody) 7
    { StatusCode := 200, Body := .ok sampleBody } sampleBody { Steps := sampleRows }
    (by decide) rfl rfl rfl rfl
    (by
      intro s hs
      simp only [sampleRows, List.mem_cons, List.mem_singleton, List.not_mem_nil, or_false] at hs
      rcases hs with rfl | rfl
      · exact ⟨⟨_, rfl⟩, ⟨_, rfl⟩⟩
      · exact ⟨⟨_, rfl⟩, ⟨_, rfl⟩⟩)
  ⟨h.1, h.2.1⟩

/-- C2: when the request is answered with status 200 and the body decodes, but at least one
row has a date or a steps string that does not parse, `Collect("steps", daysBack)` returns the
nil slice (zero metrics) and an error, however many rows before the bad one parsed. -/
theorem collect_bad_row (W : World) (c : FitbitCollector) (daysBack : Int)
    (resp : Response) (body : Bytes) (a : FitbitActivities)
    (hurl : W.urlParse (stepsURI W c daysBack) = none)
    (hdo : c.client.Do (stepsRequest W c daysBack) = .ok resp)
    (hstatus : resp.StatusCode = 200) (hbody : resp.Body = .ok body)
    (hjson : W.Unmarshal body = .ok a)
    (hbad : ∃ s ∈ a.Steps, rowFails W s) :
    (c.Collect W "steps" daysBack).1.1 = .nil ∧
    (c.Collect W "steps" daysBack).1.1.len = 0 ∧
    ∃ err, (c.Collect W "steps" daysBack).1.2 = some err := by
  rw [Collect_steps, getSteps_decoded W c daysBack resp body a hurl hdo hstatus hbody hjson]
  obtain ⟨err, he⟩ := stepsLoop_fail W a.Steps .nil hbad
  rw [he]
  exact ⟨rfl, rfl, err, rfl⟩

/-- A run of C2: a good row followed by a row with steps "abc" gives the nil slice and an
error. -/
theorem collect_bad_row_witness :
    ((sampleCollector 200 sampleBody).Collect (sampleWorld badRows) "steps" 7).1.1 = .nil ∧
    ∃ err, ((sampleCollector 200 sampleBody).Collect (sampleWorld badRows) "steps" 7).1.2
      = some err :=
  have h := collect_bad_row (sampleWorld badRows) (sampleCollector 200 sampleBody) 7
    { StatusCode := 200, Body := .ok sampleBody } sampleBody { Steps := badRows }
    (by decide) rfl rfl rfl rfl
    ⟨{ ActivityDate := "2024-03-14", Steps := "abc" }, by simp [badRows], Or.inr ⟨_, rfl⟩⟩
  ⟨h.1, h.2.2⟩

/-- C3: for a metric name other than "steps", `Collect` returns the nil slice and an error
whose message is "unsupported metric: " followed by the name, and makes no call. -/
theorem collect_unsupported (W : World) (c : FitbitCollector) (metricName : String)
    (daysBack : Int) (h : metricName ≠ "steps") :
    (c.Collect W metricName daysBack).1.1 = .nil ∧
    (∃ err, (c.Collect W metricName daysBack).1.2 = some err ∧
      err.Error = "unsupported metric: " ++ metricName) ∧
    (c.Collect W metricName daysBack).2 = [] := by
  unfold FitbitCollector.Collect
  rw [if_neg h]
  exact ⟨rfl, ⟨_, rfl, rfl⟩, rfl⟩

/-- A run of C3 with the metric name "sleep". -/
theorem collect_unsupported_witness :
    "sleep" ≠ "steps" ∧
    ((sampleCollector 200 sampleBody).Collect (sampleWorld sampleRows) "sleep" 7).1.1 = .nil ∧
    ∃ err, ((sampleCollector 200 sampleBody).Collect (sampleWorld sampleRows) "sleep" 7).1.2
        = some err ∧ err.Error = "unsupported metric: sleep" :=
  have h := collect_unsupported (sampleWorld sampleRows) (sampleCollector 200 sampleBody)
    "sleep" 7 (by decide)
  ⟨by decide, h.1, h.2.1⟩

/-- C5: when the response has a status code other than 200, whatever its body,
`Collect("steps", daysBack)` returns the nil slice and an error whose message ends with
"bad response code: " and the decimal status code; the body is neither read nor decoded. -/
theorem collect_bad_status (W : World) (c : FitbitCollector) (daysBack : Int)
    (resp : Response)
    (hurl : W.urlParse (stepsURI W c daysBack) = none)
    (hdo : c.client.Do (stepsRequest W c daysBack) = .ok resp)
    (hstatus : resp.StatusCode ≠ 200) :
    (c.Collect W "steps" daysBack).1.1 = .nil ∧
    (∃ err, (c.Collect W "steps" daysBack).1.2 = some err ∧
      err.Error = "collecting steps failed: " ++
        ("bad response code: " ++ toString resp.StatusCode)) ∧
    bodyTouched (c.Collect W "steps" daysBack).2 = false := by
  rw [Collect_steps, getSteps_eq, doRequest_steps, hurl]
  simp only [hdo]
  rw [if_pos hstatus]
  exact ⟨rfl, ⟨_, rfl, rfl⟩, rfl⟩

/-- A run of C5 with status 500. -/
theorem collect_bad_status_witness :
    ((sampleCollector 500 sampleBody).Collect (sampleWorld sampleRows) "steps" 7).1.1 = .nil ∧
    ∃ err, ((sampleCollector 500 sampleBody).Collect (sampleWorld sampleRows) "steps" 7).1.2
        = some err ∧ err.Error = "collecting steps failed: " ++ ("bad response code: " ++ "500") :=
  have h := collect_bad_status (sampleWorld sampleRows) (sampleCollector 500 sampleBody) 7
    { StatusCode := 500, Body := .ok sampleBody } (by decide) rfl (by decide)
  ⟨h.1, h.2.1⟩

/-- C8: when the response has status 200 and its body is read but does not decode,
`Collect("steps", daysBack)` returns the nil slice and the decode error wrapped with the
context "unmarshaling steps failed". -/
theorem collect_decode_failure (W : World) (c : FitbitCollector) (daysBack : Int)
    (resp : Response) (body : Bytes) (e : GoError)
    (hurl : W.urlParse (stepsURI W c daysBack) = none)
    (hdo : c.client.Do (stepsRequest W c daysBack) = .ok resp)
    (hstatus : resp.StatusCode = 200) (hbody : resp.Body = .ok body)
    (hjson : W.Unmarshal body = .error e) :
    (c.Collect W "steps" daysBack).1.1 = .nil ∧
    (c.Collect W "steps" daysBack).1.1.len = 0 ∧
    (c.Collect W "steps" daysBack).1.2 = some (errors.Wrap e "unmarshaling steps failed") ∧
    (errors.Wrap e "unmarshaling steps failed").Error = "unmarshaling steps failed: " ++ e.Error := by
  rw [Collect_steps, getSteps_undecoded W c daysBack resp body e hurl hdo hstatus hbody hjson]
  exact ⟨rfl, rfl, rfl, rfl⟩

/-- A run of C8 with a body the decoder rejects. -/
theorem collect_decode_failure_witness :
    ((sampleCollector 200 [1]).Collect (sampleWorld sampleRows) "steps" 7).1 =
      (.nil, some (errors.Wrap (.leaf "unexpected end of JSON input")
        "unmarshaling steps failed")) :=
  have h := collect_decode_failure (sampleWorld sampleRows) (sampleCollector 200 [1]) 7
    { StatusCode := 200, Body := .ok [1] } [1] (.leaf "unexpected end of JSON input")
    (by decide) rfl rfl rfl rfl
  Prod.ext h.1 h.2.2.1

/-- C7: when the client ID, the client secret or the cache file path is empty,
`NewFitbitCollector` returns no collector and an error and does not call the client factory;
when exactly one of the three is empty the message names that field, and the three messages
differ from each other. -/
theorem newCollector_missing_field (W : World) (cfg : Config)
    (h : cfg.Fitbit.ClientID = "" ∨ cfg.Fitbit.ClientSecret = "" ∨ cfg.Fitbit.CacheFile = "") :
    (NewFitbitCollector W cfg).1.1.isNone = true ∧
    (∃ err, (NewFitbitCollector W cfg).1.2 = some err) ∧
    (NewFitbitCollector W cfg).2 = [] ∧
    factoryCalled (NewFitbitCollector W cfg).2 = false ∧
    (cfg.Fitbit.ClientID = "" → cfg.Fitbit.ClientSecret ≠ "" → cfg.Fitbit.CacheFile ≠ "" →
      (NewFitbitCollector W cfg).1.2 =
        some (errors.New "'fitbit.client_id' must be present in config")) ∧
    (cfg.Fitbit.ClientID ≠ "" → cfg.Fitbit.ClientSecret = "" → cfg.Fitbit.CacheFile ≠ "" →
      (NewFitbitCollector W cfg).1.2 =
        some (errors.New "'fitbit.client_secret' must be present in config")) ∧
    (cfg.Fitbit.ClientID ≠ "" → cfg.Fitbit.ClientSecret ≠ "" → cfg.Fitbit.CacheFile = "" →
      (NewFitbitCollector W cfg).1.2 =
        some (errors.New "'fitbit.cache_file' must be present in config")) ∧
    "'fitbit.client_id' must be present in config" ≠
      "'fitbit.client_secret' must be present in config" ∧
    "'fitbit.client_id' must be present in config" ≠
      "'fitbit.cache_file' must be present in config" ∧
    "'fitbit.client_secret' must be present in config" ≠
      "'fitbit.cache_file' must be present in config" := by
  refine ⟨?_, ?_, ?_, ?_, ?_, ?_, ?_, by decide, by decide, by decide⟩
  · unfold NewFitbitCollector
    split_ifs with h1 h2 h3
    · rfl
    · rfl
    · rfl
    · exact absurd h (by simp [h1, h2, h3])
  · unfold NewFitbitCollector
    split_ifs with h1 h2 h3
    · exact ⟨_, rfl⟩
    · exact ⟨_, rfl⟩
    · exact ⟨_, rfl⟩
    · exact absurd h (by simp [h1, h2, h3])
  · unfold NewFitbitCollector
    split_ifs with h1 h2 h3
    · rfl
    · rfl
    · rfl
    · exact absurd h (by simp [h1, h2, h3])
  · unfold NewFitbitCollector
    split_ifs with h1 h2 h3
    · rfl
    · rfl
    · rfl
    · exact absurd h (by simp [h1, h2, h3])
  · intro h1 _ _
    unfold NewFitbitCollector
    rw [if_pos h1]
  · intro h1 h2 _
    unfold NewFitbitCollector
    rw [if_neg h1, if_pos h2]
  · intro h1 h2 h3
    unfold NewFitbitCollector
    rw [if_neg h1, if_neg h2, if_pos h3]

/-- A run of C7: a configuration with an empty client secret. -/
theorem newCollector_missing_field_witness :
    (NewFitbitCollector (sampleWorld sampleRows)
      { Fitbit := { ClientID := "id", ClientSecret := "", CacheFile := "cache.json" } }).1.2 =
        some (errors.New "'fitbit.client_secret' must be present in config") ∧
    (NewFitbitCollector (sampleWorld sampleRows)
      { Fitbit := { ClientID := "id", ClientSecret := "", CacheFile := "cache.json" } }).2 = [] :=
  have h := newCollector_missing_field (sampleWorld sampleRows)
    { Fitbit := { ClientID := "id", ClientSecret := "", CacheFile := "cache.json" } }
    (Or.inr (Or.inl rfl))
  ⟨h.2.2.2.2.2.1 (by decide) rfl (by decide), h.2.2.1⟩

/-! ### The request URI -/

/-- The requests `Collect` sends through the client: the one request of `getSteps` when the
metric is "steps" and the URI parses, none otherwise. -/
theorem requests_Collect (W : World) (c : FitbitCollector) (metricName : String)
    (daysBack : Int) :
    requests (c.Collect W metricName daysBack).2 =
      if metricName = "steps" ∧ W.urlParse (stepsURI W c daysBack) = none
      then [stepsRequest W c daysBack] else [] := by
  by_cases hname : metricName = "steps"
  · subst hname
    rw [Collect_steps, getSteps_eq, doRequest_steps]
    cases hU : W.urlParse (stepsURI W c daysBack) with
    | some err => simp [requests]
    | none =>
      simp only [true_and, if_true]
      cases hD : c.client.Do (stepsRequest W c daysBack) with
      | error err => rfl
      | ok resp =>
        by_cases hS : resp.StatusCode = 200
        · simp only [hS, ne_eq, not_true_eq_false, if_false]
          cases hB : resp.Body with
          | error err => rfl
          | ok b =>
            simp only []
            cases hJ : W.Unmarshal b <;> rfl
        · simp only [ne_eq, hS, not_false_eq_true, if_true]
          rfl
  · unfold FitbitCollector.Collect
    rw [if_neg hname, if_neg (fun h => hname h.1)]
    rfl

theorem trim_slash (a b : Char) (mid : List Char) (ha : a ≠ '/') (hb : b ≠ '/') :
    strings.Trim (String.mk (a :: (mid ++ [b]))) "/" = String.mk (a :: (mid ++ [b])) := by
  have hc : ∀ x : Char, ("/" : String).data.contains x = (x == '/') := by
    intro x
    show List.elem x ['/'] = _
    unfold List.elem
    cases (x == '/') <;> rfl
  unfold strings.Trim
  simp only [hc]
  rw [List.dropWhile_cons_of_neg (by simpa using ha)]
  have hr : (a :: (mid ++ [b])).reverse = b :: (a :: mid).reverse := by simp
  rw [hr, List.dropWhile_cons_of_neg (by simpa using hb), ← hr, List.reverse_reverse]

theorem endpoint_data (X Y : String) :
    ("activities/steps/date/" ++ X ++ "/" ++ Y ++ ".json") =
      String.mk ('a' :: (("ctivities/steps/date/".data ++
        (X.data ++ ("/".data ++ (Y.data ++ ".jso".data)))) ++ ['n'])) := by
  have h1 : "activities/steps/date/".data = 'a' :: "ctivities/steps/date/".data := rfl
  have h2 : ".json".data = ".jso".data ++ ['n'] := rfl
  apply String.ext
  rw [String.data_append, String.data_append, String.data_append, String.data_append, h1, h2]
  simp only [List.cons_append, List.append_assoc]

theorem trim_endpoint (X Y : String) :
    strings.Trim ("activities/steps/date/" ++ X ++ "/" ++ Y ++ ".json") "/" =
      "activities/steps/date/" ++ X ++ "/" ++ Y ++ ".json" := by
  rw [endpoint_data]
  exact trim_slash _ _ _ (by decide) (by decide)

theorem requestURI_endpoint (baseURI X Y : String) :
    requestURI baseURI ("activities/steps/date/" ++ X ++ "/" ++ Y ++ ".json") =
      baseURI ++ "/activities/steps/date/" ++ X ++ "/" ++ Y ++ ".json" := by
  unfold requestURI
  rw [trim_endpoint]
  have h1 : "/activities/steps/date/" = "/" ++ "activities/steps/date/" := by decide
  rw [h1]
  simp only [String.append_assoc]

/-- The slash trimming of `doRequest` leaves the endpoint of `getSteps` unchanged. -/
theorem trim_stepsEndpoint (loc : Location) (start «end» : Time) :
    strings.Trim (stepsEndpoint loc start «end») "/" = stepsEndpoint loc start «end» :=
  trim_endpoint (start.Format loc) («end».Format loc)

/-- The URI of `doRequest` for the endpoint of `getSteps`. -/
theorem requestURI_steps (baseURI : String) (loc : Location) (start «end» : Time) :
    requestURI baseURI (stepsEndpoint loc start «end») =
      baseURI ++ "/activities/steps/date/" ++ (start.Format loc) ++ "/" ++ («end».Format loc) ++ ".json" :=
  requestURI_endpoint baseURI (start.Format loc) («end».Format loc)

/-! ### Zone lookup and `AddDate` -/

theorem int64_id (x : Int) (h1 : -9223372036854775808 ≤ x) (h2 : x < 9223372036854775808) :
    int64 x = x := by
  unfold int64
  omega

/-- The zone adjustment of `time.Date` in a regular location: when the clock reading `g`
occurs, the instant that `Date` returns shows `g`. -/
theorem zoneOffset_shows (loc : Location) (hreg : loc.regular) (g : Int)
    (hg1 : -9223372036854775808 + 172800 ≤ g) (hg2 : g < 9223372036854775807 - 172800)
    (hex : loc.shows g) :
    int64 (g - zoneOffset loc g) + (loc.lookup (int64 (g - zoneOffset loc g))).offset = g := by
  obtain ⟨u, hu1, hu2, hu⟩ := hex
  obtain ⟨g1, g2, g3, g4, g5, g6⟩ := hreg g (by omega) (by omega)
  obtain ⟨u1, u2, u3, u4, u5, u6⟩ := hreg u hu1 hu2
  unfold zoneOffset
  by_cases h0 : (loc.lookup g).offset = 0
  · simp only [h0, ne_eq, not_true_eq_false, if_false, sub_zero]
    rw [int64_id g (by omega) (by omega), h0]
    omega
  · simp only [ne_eq, h0, not_false_eq_true, if_true]
    rw [int64_id (g - (loc.lookup g).offset) (by omega) (by omega)]
    by_cases hin : g - (loc.lookup g).offset < (loc.lookup g).start ∨
        g - (loc.lookup g).offset ≥ (loc.lookup g).«end»
    · rw [if_pos hin]
      -- the instant `utc` lies outside the span of the zone at `g`
      obtain ⟨t1, t2, t3, t4, t5, t6⟩ := hreg (g - (loc.lookup g).offset) (by omega) (by omega)
      -- `u` is not in the span of the zone at `g`
      have hu_out : u < (loc.lookup g).start ∨ u ≥ (loc.lookup g).«end» := by
        by_contra hc
        have := g6 u (by omega) (by omega)
        rw [this] at hu
        omega
      -- `u` lies in the span of the zone at `utc`
      have hu_in : (loc.lookup (g - (loc.lookup g).offset)).start ≤ u ∧
          u < (loc.lookup (g - (loc.lookup g).offset)).«end» := by
        rcases hin with hlow | hhigh
        · -- both before the span of `g`
          have hu_low : u < (loc.lookup g).start := by omega
          have e2 : (loc.lookup (g - (loc.lookup g).offset)).«end» ≤ (loc.lookup g).start := by
            by_contra hc
            have h1 := t6 (loc.lookup g).start (by omega) (by omega)
            have h2 := g6 (loc.lookup g).start (by omega) (by omega)
            rw [h1] at h2
            rw [h2] at t1
            omega
          have eu : (loc.lookup u).«end» ≤ (loc.lookup g).start := by
            by_contra hc
            have h1 := u6 (loc.lookup g).start (by omega) (by omega)
            have h2 := g6 (loc.lookup g).start (by omega) (by omega)
            rw [h1] at h2
            rw [h2] at u1
            omega
          constructor
          · omega
          · by_contra hc
            have h1 := u6 ((loc.lookup (g - (loc.lookup g).offset)).«end» - 1)
            have h2 := t6 ((loc.lookup (g - (loc.lookup g).offset)).«end» - 1) (by omega) (by omega)
            by_cases hs : (loc.lookup u).start ≤ (loc.lookup (g - (loc.lookup g).offset)).«end» - 1
            · have h3 := h1 hs (by omega)
              rw [h2] at h3
              rw [← h3] at u2
              omega
            · omega
        · -- both after the span of `g`
          have hu_high : u ≥ (loc.lookup g).«end» := by omega
          have s2 : (loc.lookup g).«end» ≤ (loc.lookup (g - (loc.lookup g).offset)).start := by
            by_contra hc
            have h1 := t6 ((loc.lookup g).«end» - 1) (by omega) (by omega)
            have h2 := g6 ((loc.lookup g).«end» - 1) (by omega) (by omega)
            rw [h1] at h2
            rw [h2] at t2
            omega
          have su : (loc.lookup g).«end» ≤ (loc.lookup u).start := by
            by_contra hc
            have h1 := u6 ((loc.lookup g).«end» - 1) (by omega) (by omega)
            have h2 := g6 ((loc.lookup g).«end» - 1) (by omega) (by omega)
            rw [h1] at h2
            rw [h2] at u2
            omega
          constructor
          · by_contra hc
            have h1 := u6 (loc.lookup (g - (loc.lookup g).offset)).start
            have h2 := t6 (loc.lookup (g - (loc.lookup g).offset)).start (by omega) (by omega)
            by_cases hs : (loc.lookup (g - (loc.lookup g).offset)).start < (loc.lookup u).«end»
            · have h3 := h1 (by omega) hs
              rw [h2] at h3
              rw [← h3] at u1
              omega
            · omega
          · omega
      have hsame := t6 u hu_in.1 hu_in.2
      have hueq : u = g - (loc.lookup (g - (loc.lookup g).offset)).offset := by
        rw [hsame] at hu
        omega
      rw [← hueq, int64_id u (by omega) (by omega)]
      exact hu
    · rw [if_neg hin]
      rw [int64_id (g - (loc.lookup g).offset) (by omega) (by omega)]
      have := g6 (g - (loc.lookup g).offset) (by omega) (by omega)
      rw [this]
      omega

theorem Date_unix (year month day hour min sec nsec : Int) (loc : Location) :
    (Date year month day hour min sec nsec loc).unix =
      int64 (int64 (((dateAbs year month day hour min sec nsec).1 : Int) - unixToAbsolute) -
        zoneOffset loc (int64 (((dateAbs year month day hour min sec nsec).1 : Int) -
          unixToAbsolute))) := rfl

/-- The absolute second count of a `Time` whose clock reading is not before the absolute
epoch. -/
theorem abs_of_wall (loc : Location) (t : Time)
    (h1 : -9223372036854775808 ≤ t.wall loc) (h2 : t.wall loc < 9223372036854775808)
    (h3 : 0 ≤ t.wall loc + 9223372028715321600) :
    ((t.abs loc : Nat) : Int) = t.wall loc + 9223372028715321600 := by
  unfold Time.abs Time.wall unixToAbsolute uint64 at *
  rw [int64_id _ h1 h2]
  omega

theorem AddDate_eq (loc : Location) (t : Time) (k : Int) :
    t.AddDate loc 0 0 k =
      Date (int64 ((absDate (t.abs loc)).1 + 0)) (int64 ((absDate (t.abs loc)).2.1 + 0))
      (int64 ((absDate (t.abs loc)).2.2.1 + k)) ((t.abs loc % 86400 / 3600 : Nat) : Int)
      (((t.abs loc % 86400 - t.abs loc % 86400 / 3600 * 3600) / 60 : Nat) : Int)
      ((t.abs loc % 86400 - t.abs loc % 86400 / 3600 * 3600 -
        (t.abs loc % 86400 - t.abs loc % 86400 / 3600 * 3600) / 60 * 60 : Nat) : Int)
      (t.nsec : Int) loc := rfl

/-- Adding `k` days with `AddDate` in a regular location moves the clock reading by
`86400 * k` seconds when the new reading occurs in the location and is in range. -/
theorem AddDate_wall (loc : Location) (hreg : loc.regular) (t : Time) (k : Int)
    (hk1 : -9223372036854775808 ≤ k) (hk2 : k < 9223372036854775776)
    (h1 : -9223372036854775808 ≤ t.wall loc) (h2 : t.wall loc < 9223372036854775808)
    (h3 : 0 ≤ t.wall loc + 9223372028715321600)
    (h4 : 0 ≤ t.wall loc + 86400 * k + 9223372028715321600)
    (h5 : t.wall loc + 86400 * k < 9223372036854775807 - 172800)
    (hex : loc.shows (t.wall loc + 86400 * k)) :
    (t.AddDate loc 0 0 k).wall loc = t.wall loc + 86400 * k := by
  have habs := abs_of_wall loc t h1 h2 h3
  have hlt : t.abs loc < 18446744073709551616 := by omega
  have hd := AddDate_dateAbs (t.abs loc) t.nsec hlt t.nsec_lt k hk1 hk2
  have hg : int64 (((uint64 ((t.abs loc : Int) + 86400 * k) : Nat) : Int) - unixToAbsolute) =
      t.wall loc + 86400 * k := by
    unfold uint64 unixToAbsolute
    rw [int64_id _ (by omega) (by omega)]
    omega
  unfold Time.wall at hg ⊢
  rw [AddDate_eq, Date_unix, hd, hg]
  exact zoneOffset_shows loc hreg _ (by unfold Time.wall at h4; omega)
    (by unfold Time.wall at h5; omega) hex

theorem abs_lt (loc : Location) (t : Time) : t.abs loc < 18446744073709551616 := by
  unfold Time.abs uint64
  omega

/-- Every `Time` has, in every location, a calendar date with a month from 1 to 12 and a day
of that month. -/
theorem Date_valid (loc : Location) (t : Time) : validDate (t.Date loc) := by
  obtain ⟨n, c, e, g, d, hc, he, hg, hn, hl, hd, hD, hdate⟩ :=
    absDate_spec (t.abs loc) (abs_lt loc t)
  have hleap := isLeap_decomp n c e g hc he hg
  generalize ((400 * n + 100 * c + 4 * e + g : Nat) : Int) + absoluteZeroYear = year
    at hdate hleap
  have hdb : d < 365 + (isLeap year).toNat := by
    cases hb : isLeap year
    · have : ¬ (g = 3 ∧ (e < 24 ∨ c = 3)) := by
        intro h; rw [hleap.mpr h] at hb; exact Bool.noConfusion hb
      simp only [Bool.toNat_false]
      omega
    · simp only [Bool.toNat_true]
      omega
  obtain ⟨hm1, hm2, hd1, hd2, _⟩ := monthDay_round (isLeap year) d (by omega) hdb
  have hDt : t.Date loc = (year, ((monthDay (isLeap year) d).1 : Int),
      ((monthDay (isLeap year) d).2 : Int)) := by
    show ((absDate (t.abs loc)).1, (absDate (t.abs loc)).2.1, (absDate (t.abs loc)).2.2.1) = _
    rw [hdate]
  rw [hDt]
  unfold validDate daysIn
  simp only [Int.toNat_ofNat]
  refine ⟨by omega, by omega, by omega, ?_⟩
  exact_mod_cast hd2

/-- One day later on the clock is the next day of the calendar. -/
theorem Date_succ (loc : Location) (t t2 : Time) (h : t2.abs loc = t.abs loc + 86400) :
    t2.Date loc = nextDay (t.Date loc) := by
  have hlt := abs_lt loc t2
  show ((absDate (t2.abs loc)).1, (absDate (t2.abs loc)).2.1, (absDate (t2.abs loc)).2.2.1) =
    nextDay ((absDate (t.abs loc)).1, (absDate (t.abs loc)).2.1, (absDate (t.abs loc)).2.2.1)
  rw [h]
  exact absDate_succ (t.abs loc) (by omega)

/-- A whole number of days later on the clock is that many calendar days later. -/
theorem absDate_iterate : ∀ (k a : Nat), a + 86400 * k < 18446744073709551616 →
    (nextDay^[k]) ((absDate a).1, (absDate a).2.1, (absDate a).2.2.1) =
      ((absDate (a + 86400 * k)).1, (absDate (a + 86400 * k)).2.1,
        (absDate (a + 86400 * k)).2.2.1)
  | 0, a, _ => rfl
  | k + 1, a, h => by
    rw [Function.iterate_succ_apply, ← absDate_succ a (by omega)]
    have := absDate_iterate k (a + 86400) (by omega)
    rw [this]
    have e : a + 86400 + 86400 * k = a + 86400 * (k + 1) := by ring
    rw [e]

theorem Date_iterate (loc : Location) (k : Nat) (s e : Time)
    (h : e.abs loc = s.abs loc + 86400 * k) : (nextDay^[k]) (s.Date loc) = e.Date loc := by
  have hlt := abs_lt loc e
  show (nextDay^[k]) ((absDate (s.abs loc)).1, (absDate (s.abs loc)).2.1,
    (absDate (s.abs loc)).2.2.1) = ((absDate (e.abs loc)).1, (absDate (e.abs loc)).2.1,
    (absDate (e.abs loc)).2.2.1)
  rw [h]
  exact absDate_iterate k (s.abs loc) (by omega)

/-- The clock readings of the window of `getSteps`. -/
theorem stepsWindow_wall (loc : Location) (now : Time) (daysBack : Int)
    (hreg : loc.regular) (h0 : 0 ≤ daysBack)
    (hlow : 86400 * (daysBack + 1) ≤ now.wall loc + 9223372028715321600)
    (hhigh : now.wall loc < 9223372036854775807 - 172800)
    (hend : loc.shows (now.wall loc - 86400))
    (hstart : loc.shows (now.wall loc - 86400 - 86400 * daysBack)) :
    (stepsWindow loc now daysBack).2.wall loc = now.wall loc - 86400 ∧
    (stepsWindow loc now daysBack).1.wall loc = now.wall loc - 86400 - 86400 * daysBack := by
  have e1 : now.wall loc + 86400 * (-1) = now.wall loc - 86400 := by ring
  have hw : (now.AddDate loc 0 0 (-1)).wall loc = now.wall loc - 86400 := by
    rw [← e1]
    exact AddDate_wall loc hreg now (-1) (by omega) (by omega) (by omega) (by omega)
      (by omega) (by omega) (by omega) (by rw [e1]; exact hend)
  have hi : int64 (-daysBack) = -daysBack := int64_id _ (by omega) (by omega)
  have e2 : (now.AddDate loc 0 0 (-1)).wall loc + 86400 * (-daysBack) =
      now.wall loc - 86400 - 86400 * daysBack := by rw [hw]; ring
  have hs : ((now.AddDate loc 0 0 (-1)).AddDate loc 0 0 (int64 (-daysBack))).wall loc =
      now.wall loc - 86400 - 86400 * daysBack := by
    rw [hi, ← e2]
    exact AddDate_wall loc hreg _ (-daysBack) (by omega) (by omega) (by omega) (by omega)
      (by omega) (by omega) (by omega) (by rw [e2]; exact hstart)
  exact ⟨hw, hs⟩

/-! ### The window of `getSteps` -/

/-- The location `time.UTC` is regular. -/
theorem UTC_regular : UTC.regular := by
  intro s h1 h2
  have ho : (UTC.lookup s).offset = 0 := rfl
  have hs : (UTC.lookup s).start = -9223372036854775808 := rfl
  have he : (UTC.lookup s).«end» = 9223372036854775807 := rfl
  rw [ho, hs, he]
  refine ⟨h1, h2, by decide, by decide, by decide, fun _ _ _ => rfl⟩

/-- C4 (amended): in a location with regular zone data, for every clock reading and every
`daysBack ≥ 0` such that the same time of day one day earlier and `1 + daysBack` days earlier
occurs on the local clock (it is not skipped by a zone transition), lies at or after the
absolute epoch of `time.Time`, and today is more than two days before the largest Unix time,
the window of `getSteps` ends one calendar day before today and starts `daysBack` calendar
days before its end: start ≤ end, the end is before today, and the window spans
`daysBack + 1` days. -/
theorem stepsWindow_calendar (loc : Location) (now : Time) (daysBack : Int)
    (hreg : loc.regular) (h0 : 0 ≤ daysBack)
    (hlow : 86400 * (daysBack + 1) ≤ now.wall loc + unixToAbsolute)
    (hhigh : now.wall loc < 9223372036854775807 - 172800)
    (hend : loc.shows (now.wall loc - 86400))
    (hstart : loc.shows (now.wall loc - 86400 - 86400 * daysBack)) :
    ((stepsWindow loc now daysBack).2.dayNumber loc : Int) = now.dayNumber loc - 1 ∧
    ((stepsWindow loc now daysBack).1.dayNumber loc : Int) = now.dayNumber loc - 1 - daysBack ∧
    nextDay ((stepsWindow loc now daysBack).2.Date loc) = now.Date loc ∧
    (nextDay^[daysBack.toNat]) ((stepsWindow loc now daysBack).1.Date loc)
      = (stepsWindow loc now daysBack).2.Date loc ∧
    (stepsWindow loc now daysBack).1.dayNumber loc ≤ (stepsWindow loc now daysBack).2.dayNumber loc ∧
    (stepsWindow loc now daysBack).2.dayNumber loc < now.dayNumber loc ∧
    ((stepsWindow loc now daysBack).2.dayNumber loc : Int)
      - (stepsWindow loc now daysBack).1.dayNumber loc + 1 = daysBack + 1 := by
  have hlow2 : 86400 * (daysBack + 1) ≤ now.wall loc + 9223372028715321600 := hlow
  obtain ⟨hwe, hws⟩ := stepsWindow_wall loc now daysBack hreg h0 hlow2 hhigh hend hstart
  have han := abs_of_wall loc now (by omega) (by omega) (by omega)
  have hae := abs_of_wall loc (stepsWindow loc now daysBack).2 (by omega) (by omega) (by omega)
  have has := abs_of_wall loc (stepsWindow loc now daysBack).1 (by omega) (by omega) (by omega)
  rw [hwe] at hae
  rw [hws] at has
  have hdn : ∀ t : Time, t.dayNumber loc = t.abs loc / 86400 := fun _ => rfl
  have hn := hdn now
  have he := hdn (stepsWindow loc now daysBack).2
  have hs := hdn (stepsWindow loc now daysBack).1
  have h1 : now.abs loc = (stepsWindow loc now daysBack).2.abs loc + 86400 := by omega
  have h2 : (stepsWindow loc now daysBack).2.abs loc =
      (stepsWindow loc now daysBack).1.abs loc + 86400 * daysBack.toNat := by omega
  refine ⟨by omega, by omega, (Date_succ loc _ _ h1).symm, Date_iterate loc _ _ _ h2,
    by omega, by omega, by omega⟩

set_option maxRecDepth 1000000 in
/-- A run of C4 (amended): on 15 March 2024 in UTC with `daysBack = 7` the window is
2024-03-07 to 2024-03-14. -/
theorem stepsWindow_calendar_witness :
    (stepsWindow UTC sampleNow 7).1.Format UTC = "2024-03-07" ∧
    (stepsWindow UTC sampleNow 7).2.Format UTC = "2024-03-14" ∧
    ((stepsWindow UTC sampleNow 7).2.dayNumber UTC : Int)
      - (stepsWindow UTC sampleNow 7).1.dayNumber UTC + 1 = 7 + 1 :=
  ⟨by decide, by decide,
    (stepsWindow_calendar UTC sampleNow 7 UTC_regular (by decide) (by decide) (by decide)
      ⟨sampleNow.wall UTC - 86400, by decide, by decide, by decide⟩
      ⟨sampleNow.wall UTC - 86400 - 86400 * 7, by decide, by decide, by decide⟩).2.2.2.2.2.2⟩

set_option maxRecDepth 1000000 in
/-- C4 fails in two ways.  For a large `daysBack`: on 15 March 2024 in UTC with
`daysBack = 2 ^ 62` the 64 bit second count wraps, the start of the window equals its end
(14 March 2024), and the window spans one day, not `2 ^ 62 + 1`.  At a zone transition: in
Havana on 11 March 2024 at 00:30 local time, the reading 00:30 of 10 March was skipped when the
clocks were set forward, `AddDate(0, 0, -1)` lands on 9 March 23:30, and the window with
`daysBack = 0` ends on 9 March, two days before today. -/
theorem stepsWindow_wraps :
    (0 : Int) ≤ 4611686018427387904 ∧
    (stepsWindow UTC sampleNow 4611686018427387904).1
      = (stepsWindow UTC sampleNow 4611686018427387904).2 ∧
    (stepsWindow UTC sampleNow 4611686018427387904).1.Format UTC = "2024-03-14" ∧
    (stepsWindow UTC sampleNow 4611686018427387904).2.Format UTC = "2024-03-14" ∧
    ¬ (((stepsWindow UTC sampleNow 4611686018427387904).2.dayNumber UTC : Int)
        - (stepsWindow UTC sampleNow 4611686018427387904).1.dayNumber UTC + 1
      = 4611686018427387904 + 1) ∧
    havanaNow.Format havana = "2024-03-11" ∧
    havanaNow.Clock havana = (0, 30, 0) ∧
    (stepsWindow havana havanaNow 0).2.Format havana = "2024-03-09" ∧
    (stepsWindow havana havanaNow 0).2.Clock havana = (23, 30, 0) ∧
    ¬ (nextDay ((stepsWindow havana havanaNow 0).2.Date havana) = havanaNow.Date havana) ∧
    ¬ (((stepsWindow havana havanaNow 0).2.dayNumber havana : Int)
      = havanaNow.dayNumber havana - 1) := by
  decide

/-! ### The text of a formatted date -/

/-- Every character that `Nat.toDigitsCore` adds in base ten is one of the ten digits. -/
theorem toDigitsCore_chars (P : Char → Prop) (hP : ∀ d : Nat, d < 10 → P (Nat.digitChar d)) :
    ∀ (fuel n : Nat) (ds : List Char), (∀ c ∈ ds, P c) →
      ∀ c ∈ Nat.toDigitsCore 10 fuel n ds, P c
  | 0, n, ds, h => by
    unfold Nat.toDigitsCore
    exact h
  | fuel + 1, n, ds, h => by
    have hcons : ∀ c ∈ Nat.digitChar (n % 10) :: ds, P c := by
      intro c hc
      rcases List.mem_cons.mp hc with rfl | hc
      · exact hP _ (Nat.mod_lt _ (by norm_num))
      · exact h c hc
    unfold Nat.toDigitsCore
    simp only []
    split_ifs
    · exact hcons
    · exact toDigitsCore_chars P hP fuel (n / 10) _ hcons

/-- The characters of `appendInt` are digits or the minus sign. -/
theorem appendInt_chars (x : Int) (width : Nat) :
    ∀ ch ∈ (appendInt x width).data, ch.isAlphanum = true ∨ ch = '/' ∨ ch = '-' ∨ ch = '.' := by
  have hd : ∀ d : Nat, d < 10 → ((Nat.digitChar d).isAlphanum = true ∨ Nat.digitChar d = '/' ∨
      Nat.digitChar d = '-' ∨ Nat.digitChar d = '.') := by
    intro d h
    interval_cases d <;> exact Or.inl rfl
  intro ch hch
  unfold appendInt at hch
  simp only [List.mem_append] at hch
  rcases hch with (hch | hch) | hch
  · split_ifs at hch
    · rcases List.mem_singleton.mp hch with rfl
      exact Or.inr (Or.inr (Or.inl rfl))
    · cases hch
  · rw [List.eq_of_mem_replicate hch]
    exact Or.inl rfl
  · exact toDigitsCore_chars
      (fun c => c.isAlphanum = true ∨ c = '/' ∨ c = '-' ∨ c = '.') hd _ _ [] (fun _ h => by cases h) ch hch

/-- The characters of a formatted date are digits or the minus sign. -/
theorem Format_chars (loc : Location) (t : Time) :
    ∀ ch ∈ (t.Format loc).data, ch.isAlphanum = true ∨ ch = '/' ∨ ch = '-' ∨ ch = '.' := by
  intro ch hch
  unfold Time.Format at hch
  simp only [String.data_append, List.mem_append] at hch
  rcases hch with (((hch | hch) | hch) | hch) | hch
  · exact appendInt_chars _ _ ch hch
  · rcases List.mem_singleton.mp hch with rfl
    exact Or.inr (Or.inr (Or.inl rfl))
  · exact appendInt_chars _ _ ch hch
  · rcases List.mem_singleton.mp hch with rfl
    exact Or.inr (Or.inr (Or.inl rfl))
  · exact appendInt_chars _ _ ch hch

theorem toDigitsCore_one (f n : Nat) (ds : List Char) (h : n < 10) :
    Nat.toDigitsCore 10 (f + 1) n ds = Nat.digitChar n :: ds := by
  unfold Nat.toDigitsCore
  have h1 : n / 10 = 0 := by omega
  have h2 : n % 10 = n := by omega
  simp only [h1, h2, if_true]

theorem toDigitsCore_step (f n : Nat) (ds : List Char) (h : 10 ≤ n) :
    Nat.toDigitsCore 10 (f + 1) n ds =
      Nat.toDigitsCore 10 f (n / 10) (Nat.digitChar (n % 10) :: ds) := by
  rw [Nat.toDigitsCore]
  have h1 : ¬ (n / 10 = 0) := by omega
  simp only [h1, if_false]

/-- The decimal digits of a number below ten thousand. -/
theorem toDigits_small (n : Nat) (h : n < 10000) :
    Nat.toDigits 10 n =
      if n < 10 then [Nat.digitChar n]
      else if n < 100 then [Nat.digitChar (n / 10), Nat.digitChar (n % 10)]
      else if n < 1000 then
        [Nat.digitChar (n / 100), Nat.digitChar (n / 10 % 10), Nat.digitChar (n % 10)]
      else [Nat.digitChar (n / 1000), Nat.digitChar (n / 100 % 10),
        Nat.digitChar (n / 10 % 10), Nat.digitChar (n % 10)] := by
  unfold Nat.toDigits
  split_ifs with h1 h2 h3
  · exact toDigitsCore_one n n [] h1
  · obtain ⟨f, hf⟩ : ∃ f, n + 1 = f + 2 := ⟨n - 1, by omega⟩
    rw [hf, toDigitsCore_step _ _ _ (by omega), toDigitsCore_one _ _ _ (by omega)]
  · obtain ⟨f, hf⟩ : ∃ f, n + 1 = f + 3 := ⟨n - 2, by omega⟩
    rw [hf, toDigitsCore_step _ _ _ (by omega), toDigitsCore_step _ _ _ (by omega),
      toDigitsCore_one _ _ _ (by omega)]
    have e : n / 10 / 10 = n / 100 := by omega
    rw [e]
  · obtain ⟨f, hf⟩ : ∃ f, n + 1 = f + 4 := ⟨n - 3, by omega⟩
    rw [hf, toDigitsCore_step _ _ _ (by omega), toDigitsCore_step _ _ _ (by omega),
      toDigitsCore_step _ _ _ (by omega), toDigitsCore_one _ _ _ (by omega)]
    have e1 : n / 10 / 10 / 10 = n / 1000 := by omega
    have e2 : n / 10 / 10 % 10 = n / 100 % 10 := by omega
    rw [e1, e2]

/-- The Go call `appendInt(b, x, 4)` for `0 ≤ x ≤ 9999` writes the four decimal digits. -/
theorem appendInt_four (n : Nat) (h : n < 10000) :
    appendInt (n : Int) 4 = String.mk [Nat.digitChar (n / 1000 % 10),
      Nat.digitChar (n / 100 % 10), Nat.digitChar (n / 10 % 10), Nat.digitChar (n % 10)] := by
  unfold appendInt
  have hneg : ¬ ((n : Int) < 0) := by omega
  simp only [Int.natAbs_ofNat, hneg, if_false, List.nil_append]
  rw [toDigits_small n h]
  split_ifs with h1 h2 h3
  · have e1 : n / 1000 % 10 = 0 := by omega
    have e2 : n / 100 % 10 = 0 := by omega
    have e3 : n / 10 % 10 = 0 := by omega
    have e4 : n % 10 = n := by omega
    rw [e1, e2, e3, e4]
    rfl
  · have e1 : n / 1000 % 10 = 0 := by omega
    have e2 : n / 100 % 10 = 0 := by omega
    have e3 : n / 10 % 10 = n / 10 := by omega
    rw [e1, e2, e3]
    rfl
  · have e1 : n / 1000 % 10 = 0 := by omega
    have e2 : n / 100 % 10 = n / 100 := by omega
    rw [e1, e2]
    rfl
  · have e1 : n / 1000 % 10 = n / 1000 := by omega
    rw [e1]
    rfl

/-- The Go call `appendInt(b, x, 2)` for `0 ≤ x ≤ 99` writes the two decimal digits. -/
theorem appendInt_two (n : Nat) (h : n < 100) :
    appendInt (n : Int) 2 = String.mk [Nat.digitChar (n / 10 % 10), Nat.digitChar (n % 10)] := by
  unfold appendInt
  have hneg : ¬ ((n : Int) < 0) := by omega
  simp only [Int.natAbs_ofNat, hneg, if_false, List.nil_append]
  rw [toDigits_small n (by omega)]
  split_ifs with h1
  · have e3 : n / 10 % 10 = 0 := by omega
    have e4 : n % 10 = n := by omega
    rw [e3, e4]
    rfl
  · have e3 : n / 10 % 10 = n / 10 := by omega
    rw [e3]
    rfl

theorem daysIn_le (m y : Int) (h1 : 1 ≤ m) (h2 : m ≤ 12) : daysIn m y ≤ 31 := by
  unfold daysIn
  cases isLeap y <;> interval_cases m <;> decide

/-- For a year from 0 to 9999, `Format("2006-01-02")` writes the date as YYYY-MM-DD. -/
theorem Format_isoDate (loc : Location) (t : Time)
    (h1 : 0 ≤ (t.Date loc).1) (h2 : (t.Date loc).1 ≤ 9999) :
    t.Format loc = isoDate (t.Date loc) := by
  obtain ⟨hm1, hm2, hd1, hd2⟩ := Date_valid loc t
  have hd3 := daysIn_le _ (t.Date loc).1 hm1 hm2
  unfold Time.Format isoDate
  generalize t.Date loc = c at *
  obtain ⟨y, m, d⟩ := c
  simp only at *
  obtain ⟨y, rfl⟩ := Int.eq_ofNat_of_zero_le h1
  obtain ⟨m, rfl⟩ := Int.eq_ofNat_of_zero_le (by omega : 0 ≤ m)
  obtain ⟨d, rfl⟩ := Int.eq_ofNat_of_zero_le (by omega : 0 ≤ d)
  rw [appendInt_four y (by omega), appendInt_two m (by omega), appendInt_two d (by omega)]
  simp only [Int.toNat_ofNat]
  rfl

/-! ### The request of a collector built by `NewFitbitCollector` -/

/-- A collector returned by `NewFitbitCollector` has the base URI `fitbitURI`. -/
theorem NewFitbitCollector_baseURI (W : World) (cfg : Config) (c : FitbitCollector)
    (hc : (NewFitbitCollector W cfg).1.1 = some c) : c.baseURI = fitbitURI := by
  unfold NewFitbitCollector at hc
  split_ifs at hc
  dsimp only at hc
  split at hc
  · exact Option.noConfusion hc
  · injection hc with hc
    rw [← hc]

theorem fitbit_steps_uri (X Y : String) :
    fitbitURI ++ "/activities/steps/date/" ++ X ++ "/" ++ Y ++ ".json" =
      "https://api.fitbit.com/" ++ ("1/user/-/activities/steps/date/" ++ X ++ "/" ++ Y ++ ".json") := by
  have h : fitbitURI ++ "/activities/steps/date/" =
      "https://api.fitbit.com/" ++ "1/user/-/activities/steps/date/" := by decide
  rw [h]
  simp only [String.append_assoc]

theorem fitbit_steps_path_chars (X Y : String)
    (hX : ∀ ch ∈ X.data, ch.isAlphanum = true ∨ ch = '/' ∨ ch = '-' ∨ ch = '.')
    (hY : ∀ ch ∈ Y.data, ch.isAlphanum = true ∨ ch = '/' ∨ ch = '-' ∨ ch = '.') :
    ∀ ch ∈ ("1/user/-/activities/steps/date/" ++ X ++ "/" ++ Y ++ ".json").data,
      ch.isAlphanum = true ∨ ch = '/' ∨ ch = '-' ∨ ch = '.' := by
  have h1 : ∀ ch ∈ "1/user/-/activities/steps/date/".data,
      ch.isAlphanum = true ∨ ch = '/' ∨ ch = '-' ∨ ch = '.' := by decide
  have h2 : ∀ ch ∈ "/".data, ch.isAlphanum = true ∨ ch = '/' ∨ ch = '-' ∨ ch = '.' := by decide
  have h3 : ∀ ch ∈ ".json".data, ch.isAlphanum = true ∨ ch = '/' ∨ ch = '-' ∨ ch = '.' := by
    decide
  intro ch hch
  simp only [String.data_append, List.mem_append] at hch
  rcases hch with (((hch | hch) | hch) | hch) | hch
  · exact h1 ch hch
  · exact hX ch hch
  · exact h2 ch hch
  · exact hY ch hch
  · exact h3 ch hch

/-- The function `http.NewRequest` accepts the steps URI of a collector on `fitbitURI`. -/
theorem urlParse_stepsURI (W : World) (c : FitbitCollector) (daysBack : Int)
    (hc : c.baseURI = fitbitURI) : W.urlParse (stepsURI W c daysBack) = none := by
  unfold stepsURI
  rw [requestURI_steps, hc, fitbit_steps_uri]
  exact W.urlParse_fitbit _ (fitbit_steps_path_chars _ _ (Format_chars _ _) (Format_chars _ _))

/-- C6 (amended): for every base URI and every window (start, end) whose years lie between 0
and 9999, `Format("2006-01-02")` writes both dates as YYYY-MM-DD and the URI that `doRequest`
builds for `getSteps` is the base URI, "/activities/steps/date/", the start as YYYY-MM-DD, "/",
the end as YYYY-MM-DD and ".json"; the slash trimming leaves the endpoint unchanged and one "/"
joins base URI and endpoint.  When that window is the one `getSteps` computes, a request that
`Collect("steps", daysBack)` sends is a GET of that URI without a body. -/
theorem steps_request_uri (W : World) (c : FitbitCollector) (daysBack : Int)
    (baseURI : String) (start «end» : Time)
    (hs1 : 0 ≤ (start.Date W.Local).1) (hs2 : (start.Date W.Local).1 ≤ 9999)
    (he1 : 0 ≤ («end».Date W.Local).1) (he2 : («end».Date W.Local).1 ≤ 9999) :
    start.Format W.Local = isoDate (start.Date W.Local) ∧
    «end».Format W.Local = isoDate («end».Date W.Local) ∧
    validDate (start.Date W.Local) ∧ validDate («end».Date W.Local) ∧
    strings.Trim (stepsEndpoint W.Local start «end») "/" = stepsEndpoint W.Local start «end» ∧
    requestURI baseURI (stepsEndpoint W.Local start «end») =
      baseURI ++ "/" ++ stepsEndpoint W.Local start «end» ∧
    requestURI baseURI (stepsEndpoint W.Local start «end») =
      baseURI ++ "/activities/steps/date/" ++ isoDate (start.Date W.Local) ++ "/" ++
        isoDate («end».Date W.Local) ++ ".json" ∧
    (stepsWindow W.Local W.Now daysBack = (start, «end») →
      stepsURI W c daysBack =
        c.baseURI ++ "/activities/steps/date/" ++ isoDate (start.Date W.Local) ++ "/" ++
          isoDate («end».Date W.Local) ++ ".json" ∧
      requests (c.Collect W "steps" daysBack).2 =
        (if W.urlParse (stepsURI W c daysBack) = none
         then [{ Method := "GET",
                 URL := c.baseURI ++ "/activities/steps/date/" ++ isoDate (start.Date W.Local) ++
                   "/" ++ isoDate («end».Date W.Local) ++ ".json",
                 Body := none }]
         else [])) := by
  have hfs := Format_isoDate W.Local start hs1 hs2
  have hfe := Format_isoDate W.Local «end» he1 he2
  have huri : ∀ b : String, requestURI b (stepsEndpoint W.Local start «end») =
      b ++ "/activities/steps/date/" ++ isoDate (start.Date W.Local) ++ "/" ++
        isoDate («end».Date W.Local) ++ ".json" := by
    intro b
    rw [requestURI_steps, hfs, hfe]
  refine ⟨hfs, hfe, Date_valid _ _, Date_valid _ _, trim_stepsEndpoint _ start «end», ?_,
    huri baseURI, ?_⟩
  · unfold requestURI
    rw [trim_stepsEndpoint]
  · intro hw
    have hu : stepsURI W c daysBack =
        c.baseURI ++ "/activities/steps/date/" ++ isoDate (start.Date W.Local) ++ "/" ++
          isoDate («end».Date W.Local) ++ ".json" := by
      unfold stepsURI
      rw [hw]
      exact huri c.baseURI
    refine ⟨hu, ?_⟩
    rw [requests_Collect]
    simp only [true_and]
    unfold stepsRequest
    rw [hu]

set_option maxRecDepth 1000000 in
/-- A run of C6 (amended): on 15 March 2024 in UTC with `daysBack = 7` the collector on the
Fitbit base URI asks for the days 2024-03-07 to 2024-03-14. -/
theorem steps_request_uri_witness :
    stepsURI (sampleWorld sampleRows) (sampleCollector 200 sampleBody) 7 =
      "https://api.fitbit.com/1/user/-/activities/steps/date/2024-03-07/2024-03-14.json" :=
  ((steps_request_uri (sampleWorld sampleRows) (sampleCollector 200 sampleBody) 7 fitbitURI
    (stepsWindow UTC sampleNow 7).1 (stepsWindow UTC sampleNow 7).2
    (by decide) (by decide) (by decide) (by decide)).2.2.2.2.2.2.2 rfl).1.trans (by decide)

set_option maxRecDepth 1000000 in
/-- C6 fails for a window that starts before the year 0: on 15 March 2024 in UTC with
`daysBack = 800000` the start of the window is 16 November of the year -167, which
`Format("2006-01-02")` writes with a sign as "-0167-11-16", eleven characters that are not of
the form YYYY-MM-DD, and the request carries them. -/
theorem steps_request_uri_signed_year :
    (stepsWindow UTC sampleNow 800000).1.Date UTC = (-167, 11, 16) ∧
    (stepsWindow UTC sampleNow 800000).1.Format UTC = "-0167-11-16" ∧
    ((stepsWindow UTC sampleNow 800000).1.Format UTC).length = 11 ∧
    (isoDate ((stepsWindow UTC sampleNow 800000).1.Date UTC)).length = 10 ∧
    ¬ ((stepsWindow UTC sampleNow 800000).1.Format UTC
      = isoDate ((stepsWindow UTC sampleNow 800000).1.Date UTC)) ∧
    stepsURI (sampleWorld sampleRows) (sampleCollector 200 sampleBody) 800000 =
      "https://api.fitbit.com/1/user/-/activities/steps/date/-0167-11-16/2024-03-14.json" ∧
    requests ((sampleCollector 200 sampleBody).Collect (sampleWorld sampleRows) "steps" 800000).2 =
      [{ Method := "GET",
         URL := "https://api.fitbit.com/1/user/-/activities/steps/date/-0167-11-16/2024-03-14.json",
         Body := none }] := by
  decide

/-- C10: for every collector that `NewFitbitCollector` returned, every metric name and every
`daysBack`, `Collect` sends exactly one request through the client when the metric is "steps",
a GET of the steps URI without a body, whatever the client answers, and no request for every
other metric name. -/
theorem collect_request_count (W0 W : World) (cfg : Config) (c : FitbitCollector)
    (metricName : String) (daysBack : Int)
    (hc : (NewFitbitCollector W0 cfg).1.1 = some c) :
    requestCount (c.Collect W metricName daysBack).2 = (if metricName = "steps" then 1 else 0) ∧
    requests (c.Collect W metricName daysBack).2 =
      (if metricName = "steps"
       then [{ Method := "GET", URL := stepsURI W c daysBack, Body := none }] else []) := by
  have hu := urlParse_stepsURI W c daysBack (NewFitbitCollector_baseURI W0 cfg c hc)
  have h := requests_Collect W c metricName daysBack
  simp only [hu, and_true] at h
  refine ⟨?_, h⟩
  unfold requestCount
  rw [h]
  split_ifs <;> rfl

set_option maxRecDepth 1000000 in
/-- A run of C10: the collector built from the sample configuration sends one request for
"steps" and none for "sleep". -/
theorem collect_request_count_witness :
    requestCount ((sampleCollector 200 sampleBody).Collect (sampleWorld sampleRows) "steps" 7).2
      = 1 ∧
    requestCount ((sampleCollector 200 sampleBody).Collect (sampleWorld sampleRows) "sleep" 7).2
      = 0 :=
  ⟨(collect_request_count (sampleWorld sampleRows) (sampleWorld sampleRows) sampleConfig
      (sampleCollector 200 sampleBody) "steps" 7 rfl).1,
   (collect_request_count (sampleWorld sampleRows) (sampleWorld sampleRows) sampleConfig
      (sampleCollector 200 sampleBody) "sleep" 7 rfl).1⟩

/-! ### The values of the metrics -/

/-- The strings that `special` reads are the spellings of the infinities and of NaN. -/
theorem special_spelling (s : String) (v : Float64) (h : special s = some v) :
    v.isFinite = false ∧ String.mk (s.data.map Char.toLower) ∈ specialSpellings := by
  unfold special at h
  unfold specialSpellings
  unfold equalIgnoreCase at h
  split at h
  · exact Option.noConfusion h
  · split_ifs at h <;> first
      | exact Option.noConfusion h
      | (cases h
         refine ⟨rfl, ?_⟩
         simp only [beq_iff_eq, Bool.or_eq_true] at *
         simp only [List.mem_cons, String.ext_iff]
         tauto)

/-- When the loop reports no error, every row parsed. -/
theorem stepsLoop_rows_parse (W : World) (rows : List StepsRow) (m : Slice Metric)
    (h : (stepsLoop W rows m).2 = none) : ∀ s ∈ rows, rowParses W s := by
  intro s hs
  rcases rowParses_or_rowFails W s with hp | hf
  · exact hp
  · obtain ⟨err, he⟩ := stepsLoop_fail W rows m ⟨s, hs, hf⟩
    rw [he] at h
    exact Option.noConfusion h

/-- C9 (amended): when `Collect("steps", daysBack)` succeeds on a decoded response, it returns
one metric per row, every metric has a valid calendar date (read in any location), and its
value is finite unless the steps string of its row is, ignoring case, one of the spellings
"inf", "infinity", "+inf", "+infinity", "-inf", "-infinity" or "nan", which
`strconv.ParseFloat` reads as an infinity or as NaN. -/
theorem collect_values (W : World) (c : FitbitCollector) (daysBack : Int)
    (resp : Response) (body : Bytes) (a : FitbitActivities)
    (hurl : W.urlParse (stepsURI W c daysBack) = none)
    (hdo : c.client.Do (stepsRequest W c daysBack) = .ok resp)
    (hstatus : resp.StatusCode = 200) (hbody : resp.Body = .ok body)
    (hjson : W.Unmarshal body = .ok a)
    (hok : (c.Collect W "steps" daysBack).1.2 = none) :
    (c.Collect W "steps" daysBack).1.1.len = a.Steps.length ∧
    ∀ (i : Nat) (hi : i < a.Steps.length), ∃ met,
      (c.Collect W "steps" daysBack).1.1.toList[i]? = some met ∧
      (∀ loc : Location, validDate (met.Date.Date loc)) ∧
      (met.Value.isFinite = true ∨
        (met.Value.isFinite = false ∧ special a.Steps[i].Steps = some met.Value ∧
          String.mk (a.Steps[i].Steps.data.map Char.toLower) ∈ specialSpellings)) := by
  rw [Collect_steps, getSteps_decoded W c daysBack resp body a hurl hdo hstatus hbody hjson]
    at hok ⊢
  have hrows := stepsLoop_rows_parse W a.Steps .nil hok
  obtain ⟨mets, hf, _, hl, _⟩ := stepsLoop_ok W a.Steps .nil hrows
  have hl2 : (stepsLoop W a.Steps Slice.nil).1.toList = mets := by
    rw [hl]; rfl
  have hlen := hf.length_eq
  refine ⟨?_, ?_⟩
  · show (stepsLoop W a.Steps Slice.nil).1.toList.length = _
    rw [hl2, hlen]
  · intro i hi
    have hi2 : i < mets.length := hlen ▸ hi
    obtain ⟨_, _, hv⟩ := List.Forall₂.get hf hi hi2
    refine ⟨mets[i], ?_, fun loc => Date_valid loc _, ?_⟩
    · show (stepsLoop W a.Steps Slice.nil).1.toList[i]? = _
      rw [hl2]
      exact List.getElem?_eq_getElem hi2
    · have hv2 : strconv.ParseFloat W a.Steps[i].Steps = .ok mets[i].Value := hv
      unfold strconv.ParseFloat at hv2
      cases hsp : special a.Steps[i].Steps with
      | some f =>
        rw [hsp] at hv2
        have hfv : f = mets[i].Value := by
          injection hv2
        subst hfv
        obtain ⟨h1, h2⟩ := special_spelling _ _ hsp
        exact Or.inr ⟨h1, rfl, h2⟩
      | none =>
        rw [hsp] at hv2
        cases hr : W.readFloat a.Steps[i].Steps with
        | error e =>
          rw [hr] at hv2
          exact Except.noConfusion hv2
        | ok x =>
          rw [hr] at hv2
          have hfv : Float64.finite x = mets[i].Value := by
            injection hv2
          rw [← hfv]
          exact Or.inl rfl

set_option maxRecDepth 100000 in
/-- A run of C9 (amended): two well-formed rows give two metrics. -/
theorem collect_values_witness :
    ((sampleCollector 200 sampleBody).Collect (sampleWorld sampleRows) "steps" 7).1.1.len = 2 :=
  (collect_values (sampleWorld sampleRows) (sampleCollector 200 sampleBody) 7
    { StatusCode := 200, Body := .ok sampleBody } sampleBody { Steps := sampleRows }
    (by decide) rfl rfl rfl rfl (by decide)).1

set_option maxRecDepth 100000 in
/-- C9 fails for the steps string "Inf": `strconv.ParseFloat` reads it as positive infinity
without error, so `Collect` succeeds and returns a metric whose value is not finite. -/
theorem collect_infinite_value :
    ((sampleCollector 200 sampleBody).Collect (sampleWorld infRows) "steps" 7).1 =
      (.mk [{ Name := "fitbit.steps", Date := Date 2024 3 14 0 0 0 0 UTC, Value := .inf false }],
        none) ∧
    (Float64.inf false).isFinite = false ∧
    strconv.ParseFloat (sampleWorld infRows) "Inf" = .ok (.inf false) ∧
    strconv.ParseFloat (sampleWorld infRows) "NaN" = .ok .nan ∧
    strconv.ParseFloat (sampleWorld infRows) "infinity" = .ok (.inf false) := by
  refine ⟨by decide, rfl, rfl, rfl, rfl⟩

end Collector
